import Mathlib

/-!
# DataArts security data recognition rule resource

A shallow embedding of
`huaweicloud/services/dataarts/resource_huaweicloud_dataarts_security_data_recognition_rule.go`.

The resource data `d` is an explicit record that every operation receives and
returns.  The remote API, the client factory and the JSON decoders are fields
of an environment record, so that every statement holds for every server
behaviour.  A Go panic is an explicit outcome.
-/

namespace DataArts

/-! ## Values -/

/-- Values of Go's `interface{}` as produced by `encoding/json`: `nil`, `bool`,
`float64`, `string`, `[]interface{}` and `map[string]interface{}`.  Numbers keep
their integral value (a `float64` holds every integer below `2^53` exactly). -/
inductive Json where
  | null : Json
  | bool (b : Bool) : Json
  | num (n : Int) : Json
  | str (s : String) : Json
  | arr (xs : List Json) : Json
  | obj (kvs : List (String × Json)) : Json

/-- The payload shared by the status-code errors of `golangsdk`
(`ErrUnexpectedResponseCode`). -/
structure ErrUnexpectedResponseCode where
  URL : String
  Method : String
  Expected : List Nat
  Actual : Nat
  Body : String
deriving DecidableEq, Repr

/-- Go `error` values that reach this file: the two status-code errors the file
names, any other error, and an error that wraps another one (`%w`). -/
inductive GoError where
  | ErrDefault400 (e : ErrUnexpectedResponseCode) : GoError
  | ErrDefault404 (e : ErrUnexpectedResponseCode) : GoError
  | other (msg : String) : GoError
  | wrapped (msg : String) (inner : GoError) : GoError
deriving DecidableEq, Repr

/-- Go `errors.As(err, &target)` for a target of type `golangsdk.ErrDefault400`:
the first error of the chain that has that type. -/
def errorsAs400 : GoError → Option ErrUnexpectedResponseCode
  | .ErrDefault400 e => some e
  | .ErrDefault404 _ => none
  | .other _ => none
  | .wrapped _ inner => errorsAs400 inner

/-- Go `errors.As(err, &target)` for a target of type `golangsdk.ErrDefault404`. -/
def errorsAs404 : GoError → Option ErrUnexpectedResponseCode
  | .ErrDefault400 _ => none
  | .ErrDefault404 e => some e
  | .other _ => none
  | .wrapped _ inner => errorsAs404 inner

/-- Field lookup in a decoded JSON object (a Go map index): the value stored
under the key, or `nil`. -/
def mapIndex (key : String) : List (String × Json) → Json
  | [] => .null
  | (k, v) :: rest => if k = key then v else mapIndex key rest

/-- The library call `jmespath.Search(expression, data)` for an expression that
is a bare identifier, which is every expression this file uses: the field of
a JSON object, `nil` for a missing field and for data that is not an object. -/
def jmespathSearch (expression : String) (data : Json) : Except GoError Json :=
  match data with
  | .obj kvs => .ok (mapIndex expression kvs)
  | _ => .ok .null

/-- Go comparison `v == "DLS.4106"` of an interface value with a string
constant: true only for a string with the same content. -/
def ifaceEqString (v : Json) (s : String) : Bool :=
  match v with
  | .str t => t == s
  | _ => false

/-- Source lines 235-252.  `unmarshal` is `json.Unmarshal` applied to the error
body. -/
def parseSecurityRuleError (unmarshal : String → Except GoError Json) (err : GoError) : GoError :=
  match errorsAs400 err with
  | some errCode =>
    match unmarshal errCode.Body with
    | .error _ => err
    | .ok apiError =>
      match jmespathSearch "error_code" apiError with
      | .error _ => err
      | .ok errorCode =>
        if ifaceEqString errorCode "DLS.4106" then .ErrDefault404 errCode else err
  | none => err

/-! ## Resource data -/

/-- The `schema.ResourceData` of this resource: the id and the nineteen
attributes of the schema (source lines 36-120).  `d.Get("k").(string)` is the
field `k`; `d.Id()` is `Id`. -/
structure ResourceData where
  Id : String
  region : String
  workspace_id : String
  rule_type : String
  secrecy_level_id : String
  name : String
  builtin_rule_id : String
  content_expression : String
  column_expression : String
  comment_expression : String
  description : String
  category_id : String
  method : String
  secrecy_level : String
  secrecy_level_num : Int
  enable : Bool
  created_at : String
  created_by : String
  updated_at : String
  updated_by : String
deriving DecidableEq, Repr

/-- The value types of the schema. -/
inductive ValueType where
  | TypeString : ValueType
  | TypeInt : ValueType
  | TypeBool : ValueType
deriving DecidableEq, Repr

/-- The attributes of the schema, source lines 36-120. -/
inductive Attr where
  | region | workspace_id | rule_type | secrecy_level_id | name | builtin_rule_id
  | content_expression | column_expression | comment_expression | description | category_id
  | method | secrecy_level | secrecy_level_num | enable | created_at | created_by
  | updated_at | updated_by
deriving DecidableEq, Repr

/-- The `Type` of each attribute in the schema. -/
def Attr.type : Attr → ValueType
  | .secrecy_level_num => .TypeInt
  | .enable => .TypeBool
  | _ => .TypeString

/-- The keys of the schema map. -/
def schemaKeys : List (String × Attr) :=
  [ ("region", .region), ("workspace_id", .workspace_id), ("rule_type", .rule_type),
    ("secrecy_level_id", .secrecy_level_id), ("name", .name),
    ("builtin_rule_id", .builtin_rule_id), ("content_expression", .content_expression),
    ("column_expression", .column_expression), ("comment_expression", .comment_expression),
    ("description", .description), ("category_id", .category_id), ("method", .method),
    ("secrecy_level", .secrecy_level), ("secrecy_level_num", .secrecy_level_num),
    ("enable", .enable), ("created_at", .created_at), ("created_by", .created_by),
    ("updated_at", .updated_at), ("updated_by", .updated_by) ]

/-- The attribute that a key of `d.Set` addresses, if the schema has it. -/
def schemaAttr (key : String) : Option Attr :=
  schemaKeys.lookup key

/-- What the SDK writes for a primitive attribute (`setPrimitive`): `nil` clears
the attribute, a value of the type of the attribute is stored, and any other
value is rejected.  The result is the value as stored. -/
def decodePrimitive (t : ValueType) (key : String) (v : Json) : Except GoError Json :=
  match t, v with
  | .TypeString, .null => .ok (.str "")
  | .TypeString, .str s => .ok (.str s)
  | .TypeInt, .null => .ok (.num 0)
  | .TypeInt, .num n => .ok (.num n)
  | .TypeBool, .null => .ok (.bool false)
  | .TypeBool, .bool b => .ok (.bool b)
  | _, _ => .error (.other (key ++ ": unconvertible type"))

/-- The stored value of an attribute. -/
def ResourceData.get (d : ResourceData) : Attr → Json
  | .region => .str d.region
  | .workspace_id => .str d.workspace_id
  | .rule_type => .str d.rule_type
  | .secrecy_level_id => .str d.secrecy_level_id
  | .name => .str d.name
  | .builtin_rule_id => .str d.builtin_rule_id
  | .content_expression => .str d.content_expression
  | .column_expression => .str d.column_expression
  | .comment_expression => .str d.comment_expression
  | .description => .str d.description
  | .category_id => .str d.category_id
  | .method => .str d.method
  | .secrecy_level => .str d.secrecy_level
  | .secrecy_level_num => .num d.secrecy_level_num
  | .enable => .bool d.enable
  | .created_at => .str d.created_at
  | .created_by => .str d.created_by
  | .updated_at => .str d.updated_at
  | .updated_by => .str d.updated_by

/-- The data with a decoded value stored in an attribute. -/
def ResourceData.put (d : ResourceData) (a : Attr) (v : Json) : ResourceData :=
  match a, v with
  | .region, .str s => { d with region := s }
  | .workspace_id, .str s => { d with workspace_id := s }
  | .rule_type, .str s => { d with rule_type := s }
  | .secrecy_level_id, .str s => { d with secrecy_level_id := s }
  | .name, .str s => { d with name := s }
  | .builtin_rule_id, .str s => { d with builtin_rule_id := s }
  | .content_expression, .str s => { d with content_expression := s }
  | .column_expression, .str s => { d with column_expression := s }
  | .comment_expression, .str s => { d with comment_expression := s }
  | .description, .str s => { d with description := s }
  | .category_id, .str s => { d with category_id := s }
  | .method, .str s => { d with method := s }
  | .secrecy_level, .str s => { d with secrecy_level := s }
  | .secrecy_level_num, .num n => { d with secrecy_level_num := n }
  | .enable, .bool b => { d with enable := b }
  | .created_at, .str s => { d with created_at := s }
  | .created_by, .str s => { d with created_by := s }
  | .updated_at, .str s => { d with updated_at := s }
  | .updated_by, .str s => { d with updated_by := s }
  | _, _ => d

/-- The SDK call `d.Set(key, value)`: the data afterwards and the error returned.
The key is looked up in the schema, the value is decoded for the type of the
attribute and stored; a key outside the schema or a value of the wrong type
leaves the data as it was and returns an error. -/
def ResourceData.Set (d : ResourceData) (key : String) (value : Json) :
    ResourceData × Option GoError :=
  match schemaAttr key with
  | none => (d, some (.other (key ++ ": invalid address to set")))
  | some a =>
    match decodePrimitive a.type key value with
    | .error e => (d, some e)
    | .ok v => (d.put a v, none)

/-- The SDK call `d.SetId(v)`. -/
def ResourceData.SetId (d : ResourceData) (v : String) : ResourceData :=
  { d with Id := v }

/-! ## Diagnostics -/

inductive Severity where
  | Error : Severity
  | Warning : Severity
deriving DecidableEq, Repr

/-- An argument of a diagnostic message: one error, or the errors combined by
`multierror.Append`. -/
inductive DiagArg where
  | text (s : String) : DiagArg
  | err (e : GoError) : DiagArg
  | multierror (errs : List GoError) : DiagArg
deriving DecidableEq, Repr

/-- One `diag.Diagnostic`: its severity, and its summary kept as the format
string together with the values formatted into it. -/
structure Diagnostic where
  severity : Severity
  format : String
  args : List DiagArg
deriving DecidableEq, Repr

abbrev Diagnostics := List Diagnostic

/-- The SDK call `diag.Errorf(format, a...)`. -/
def diagErrorf (format : String) (args : List DiagArg) : Diagnostics :=
  [⟨.Error, format, args⟩]

/-- The SDK call `diag.FromErr(err)` for a non-nil error. -/
def diagFromErr (err : GoError) : Diagnostics :=
  [⟨.Error, "%s", [.err err]⟩]

/-- The call `diag.FromErr(mErr.ErrorOrNil())` of source line 231: no diagnostic
when no error was collected, else one diagnostic for all of them. -/
def diagFromMultierror (errs : List GoError) : Diagnostics :=
  match errs with
  | [] => []
  | _ :: _ => [⟨.Error, "%s", [.multierror errs]⟩]

/-- The SDK method `Diagnostics.HasError`. -/
def hasError (diags : Diagnostics) : Bool :=
  diags.any fun x => decide (x.severity = .Error)

/-! ## Helpers of the provider -/

/-- Whether the text starts with the pattern. -/
def startsWith : List Char → List Char → Bool
  | [], _ => true
  | _ :: _, [] => false
  | p :: ps, c :: cs => p == c && startsWith ps cs

/-- Scan of `strings.ReplaceAll`: `skip` counts the characters of a matched
occurrence that are still to be dropped. -/
def replaceAllChars (old new : List Char) : Nat → List Char → List Char
  | _, [] => []
  | skip + 1, _ :: cs => replaceAllChars old new skip cs
  | 0, c :: cs =>
    if startsWith old (c :: cs) then new ++ replaceAllChars old new (old.length - 1) cs
    else c :: replaceAllChars old new 0 cs

/-- Go `strings.ReplaceAll(s, old, new)` for a non-empty `old`: every
occurrence, left to right and without overlap. -/
def stringsReplaceAll (s old new : String) : String :=
  ⟨replaceAllChars old.data new.data 0 s.data⟩

/-- Modelled from the spec: `utils.ValueIngoreEmpty`, which is not in the source
file.  An optional string that is empty is marked for omission (`nil`); any
other string is kept. -/
def ValueIngoreEmpty (v : String) : Json :=
  if v = "" then .null else .str v

/-- Modelled from the spec: `utils.RemoveNil`, which is not in the source file,
the generic "strip null/empty-marked fields" step of the body builder: the
entries whose value is `nil` are dropped, the others are kept as they are. -/
def RemoveNil (data : List (String × Json)) : List (String × Json) :=
  data.filter fun kv =>
    match kv.2 with
    | .null => false
    | _ => true

/-- Modelled from the spec: `utils.PathSearch`, which is not in the source file,
the "JSON path-extraction utility returning a typed default when absent": the
value found by `jmespath.Search`, or the default when the search fails or finds
`nil`. -/
def PathSearch (expression : String) (obj : Json) (defaultValue : Json) : Json :=
  match jmespathSearch expression obj with
  | .error _ => defaultValue
  | .ok .null => defaultValue
  | .ok v => v

/-- The name Go prints for the dynamic type of an interface value. -/
def goTypeName : Json → String
  | .null => "nil"
  | .bool _ => "bool"
  | .num _ => "float64"
  | .str _ => "string"
  | .arr _ => "[]interface {}"
  | .obj _ => "map[string]interface {}"

/-- Go single-value type assertion `v.(float64)`: the number, or a panic with
the message of the runtime. -/
def assertFloat64 (v : Json) : Except String Int :=
  match v with
  | .num n => .ok n
  | _ => .error ("interface conversion: interface {} is " ++ goTypeName v ++ ", not float64")

/-- Go single-value type assertion `v.(string)`: the string, or a panic with the
message of the runtime. -/
def assertString (v : Json) : Except String String :=
  match v with
  | .str s => .ok s
  | _ => .error ("interface conversion: interface {} is " ++ goTypeName v ++ ", not string")

/-! ### Time -/

/-- A calendar date and time of day in UTC. -/
structure Civil where
  year : Int
  month : Int
  day : Int
  hour : Int
  minute : Int
  second : Int
deriving DecidableEq, Repr

/-- The proleptic Gregorian date of the day that is `z` days after 1970-01-01,
and the time of day `r` seconds after its midnight. -/
def civilOfDays (z r : Int) : Civil :=
  let z1 := z + 719468
  let era := z1 / 146097
  let doe := z1 % 146097
  let yoe := (doe - doe / 1460 + doe / 36524 - doe / 146096) / 365
  let doy := doe - (365 * yoe + yoe / 4 - yoe / 100)
  let mp := (5 * doy + 2) / 153
  let day := doy - (153 * mp + 2) / 5 + 1
  let month := if mp < 10 then mp + 3 else mp - 9
  let year := yoe + era * 400 + (if month ≤ 2 then 1 else 0)
  ⟨year, month, day, r / 3600, r % 3600 / 60, r % 60⟩

/-- The UTC date and time of the instant `t` seconds after the Unix epoch. -/
def civilOfUnix (t : Int) : Civil :=
  civilOfDays (t / 86400) (t % 86400)

/-- The number of days from 1970-01-01 to the given Gregorian date. -/
def daysOfCivil (year month day : Int) : Int :=
  let y := if month ≤ 2 then year - 1 else year
  let era := y / 400
  let yoe := y % 400
  let mp := if month ≤ 2 then month + 9 else month - 3
  let doy := (153 * mp + 2) / 5 + day - 1
  let doe := yoe * 365 + yoe / 4 - yoe / 100 + doy
  era * 146097 + doe - 719468

/-- The instant, in seconds after the Unix epoch, that a UTC date and time
denotes. -/
def unixOfCivil (c : Civil) : Int :=
  daysOfCivil c.year c.month c.day * 86400 + c.hour * 3600 + c.minute * 60 + c.second

/-- The decimal digit of a number below ten. -/
def digitChar (n : Nat) : Char :=
  match n with
  | 0 => '0' | 1 => '1' | 2 => '2' | 3 => '3' | 4 => '4'
  | 5 => '5' | 6 => '6' | 7 => '7' | 8 => '8' | _ => '9'

/-- The decimal digits of `n`, the most significant first, on at least `width`
places (`fuel` bounds the number of digits produced). -/
def padDigits : Nat → Nat → Nat → List Char → List Char
  | 0, _, _, acc => acc
  | fuel + 1, width, n, acc =>
    if n < 10 ∧ width ≤ 1 then digitChar n :: acc
    else padDigits fuel (width - 1) (n / 10) (digitChar (n % 10) :: acc)

/-- A number on two decimal places. -/
def twoDigits (n : Int) : List Char :=
  padDigits 2 2 n.toNat []

/-- A year on at least four decimal places, with a sign when negative. -/
def yearDigits (y : Int) : List Char :=
  if y < 0 then '-' :: padDigits ((-y).toNat + 4) 4 (-y).toNat []
  else padDigits (y.toNat + 4) 4 y.toNat []

/-- The RFC 3339 text of a UTC date and time, without fractional seconds:
`YYYY-MM-DDThh:mm:ssZ`. -/
def rfc3339 (c : Civil) : String :=
  ⟨yearDigits c.year ++ '-' :: twoDigits c.month ++ '-' :: twoDigits c.day ++ 'T' ::
    twoDigits c.hour ++ ':' :: twoDigits c.minute ++ ':' :: twoDigits c.second ++ ['Z']⟩

/-- Modelled from the spec: `utils.FormatTimeStampRFC3339`, which is not in the
source file, the "epoch-to-RFC3339 formatter": the RFC 3339 text, in UTC and
without fractional seconds, of the instant `timestamp` seconds after the Unix
epoch.  The spec does not describe the second argument, which is `false` at both
calls of the source; it is carried and has no effect here. -/
def FormatTimeStampRFC3339 (timestamp : Int) (_second : Bool) : String :=
  rfc3339 (civilOfUnix timestamp)

/-- Go conversion `int64(f)` of a `float64` that holds an integer of the
`int64` range: the same integer. -/
def int64OfFloat64 (f : Int) : Int := f

/-- Go integer division `a / b`, which truncates toward zero. -/
def goDiv (a b : Int) : Int := Int.tdiv a b

/-! ## The remote API -/

/-- The fields of `golangsdk.RequestOpts` that the file fills in. -/
structure RequestOpts where
  KeepResponseBody : Bool
  MoreHeaders : List (String × String)
  JSONBody : Option (List (String × Json))

/-- One call of `client.Request(method, url, &opts)`. -/
structure HttpCall where
  method : String
  url : String
  opts : RequestOpts

/-- The fields of `golangsdk.ServiceClient` that the file reads. -/
structure ServiceClient where
  Endpoint : String
  ProjectID : String
deriving DecidableEq, Repr

/-- An HTTP response as received. -/
structure Response where
  StatusCode : Nat
  Body : String
deriving DecidableEq, Repr

/-- Everything outside the file that an operation consults: the provider
configuration (`meta`), the remote API behind `client.Request`, and the JSON
decoders `utils.FlattenResponse` and `json.Unmarshal`. -/
structure Env where
  GetRegion : ResourceData → String
  NewServiceClient : String → String → Except GoError ServiceClient
  Request : ServiceClient → String → String → RequestOpts → Except GoError Response
  FlattenResponse : Response → Except GoError Json
  Unmarshal : String → Except GoError Json

/-- How an operation ends: it returns diagnostics, or it panics. -/
inductive Outcome where
  | returned (diags : Diagnostics) : Outcome
  | panicked (msg : String) : Outcome
deriving DecidableEq, Repr

/-- The observable result of an operation: the resource data afterwards, the
requests issued in order, the keys passed to `d.Set` in order, and the way
it ended. -/
structure OpResult where
  d : ResourceData
  calls : List HttpCall
  sets : List String
  outcome : Outcome

/-- Modelled from the spec: `common.CheckDeletedDiag`, which is not in the source
file.  A not-found (404) error is not a failure: the resource is dropped from
the state, which the SDK expresses by an empty id, and only a warning is
reported.  Any other error is surfaced as an error diagnostic that carries the
message and the error. -/
def CheckDeletedDiag (d : ResourceData) (err : GoError) (msg : String) :
    ResourceData × Diagnostics :=
  match errorsAs404 err with
  | some _ => (d.SetId "", [⟨.Warning, "Resource not found", []⟩])
  | none => (d, diagErrorf "%s: %s" [.text msg, .err err])

/-! ## The operations -/

/-- Source lines 124-138. -/
def buildCreateOrUpdateSecurityRuleBodyParams (d : ResourceData) : List (String × Json) :=
  [ ("rule_type", .str d.rule_type),
    ("secrecy_level_id", .str d.secrecy_level_id),
    ("name", .str d.name),
    ("method", ValueIngoreEmpty d.method),
    ("content_expression", ValueIngoreEmpty d.content_expression),
    ("column_expression", ValueIngoreEmpty d.column_expression),
    ("commit_expression", ValueIngoreEmpty d.comment_expression),
    ("builtin_rule_id", ValueIngoreEmpty d.builtin_rule_id),
    ("description", ValueIngoreEmpty d.description),
    ("category_id", ValueIngoreEmpty d.category_id) ]

/-- The timestamp argument of source lines 225-226:
`utils.FormatTimeStampRFC3339(int64(v.(float64))/1000, false)`; the type
assertion panics on a value that is not a number. -/
def timestampArg (v : Json) : Except String Json :=
  (assertFloat64 v).map fun f =>
    .str (FormatTimeStampRFC3339 (goDiv (int64OfFloat64 f) 1000) false)

/-- The arguments of `multierror.Append` at source lines 211-229, in order: the
key of each `d.Set` and the value passed to it, or the panic raised while the
value is computed. -/
def readAssignments (region : String) (getRuleRespBody : Json) :
    List (String × Except String Json) :=
  [ ("region", .ok (.str region)),
    ("rule_type", .ok (PathSearch "rule_type" getRuleRespBody .null)),
    ("name", .ok (PathSearch "name" getRuleRespBody .null)),
    ("method", .ok (PathSearch "method" getRuleRespBody .null)),
    ("content_expression", .ok (PathSearch "content_expression" getRuleRespBody .null)),
    ("column_expression", .ok (PathSearch "column_expression" getRuleRespBody .null)),
    ("comment_expression", .ok (PathSearch "commit_expression" getRuleRespBody .null)),
    ("builtin_rule_id", .ok (PathSearch "builtin_rule_id" getRuleRespBody .null)),
    ("category_id", .ok (PathSearch "category_id" getRuleRespBody .null)),
    ("description", .ok (PathSearch "description" getRuleRespBody .null)),
    ("secrecy_level", .ok (PathSearch "secrecy_level" getRuleRespBody .null)),
    ("secrecy_level_num", .ok (PathSearch "secrecy_level_num" getRuleRespBody .null)),
    ("enable", .ok (PathSearch "enable" getRuleRespBody .null)),
    ("created_at", timestampArg (PathSearch "created_at" getRuleRespBody .null)),
    ("updated_at", timestampArg (PathSearch "updated_at" getRuleRespBody .null)),
    ("created_by", .ok (PathSearch "created_by" getRuleRespBody .null)),
    ("updated_by", .ok (PathSearch "updated_by" getRuleRespBody .null)) ]

/-- The state of the argument evaluation of `multierror.Append`: the data, the
keys already passed to `d.Set`, and the errors those calls returned. -/
structure SetRun where
  d : ResourceData
  sets : List String
  errs : List GoError
  panic : Option String

/-- Go evaluates the arguments of a call from left to right: each `d.Set` runs
on the data left by the previous ones and its error is kept; a panic in an
argument ends the evaluation at once. -/
def runSets (d : ResourceData) : List (String × Except String Json) → SetRun
  | [] => ⟨d, [], [], none⟩
  | (_, .error p) :: _ => ⟨d, [], [], some p⟩
  | (key, .ok value) :: rest =>
    let r := runSets (d.Set key value).1 rest
    ⟨r.d, key :: r.sets, (d.Set key value).2.toList ++ r.errs, r.panic⟩

/-- Source lines 211-231: a panic in an argument ends the operation; otherwise the
collected errors are returned as `diag.FromErr(mErr.ErrorOrNil())`. -/
def SetRun.outcome (r : SetRun) : Outcome :=
  match r.panic with
  | some p => .panicked p
  | none => .returned (diagFromMultierror r.errs)

/-- Source lines 180-232. -/
def resourceSecurityRuleRead (env : Env) (d : ResourceData) : OpResult :=
  let region := env.GetRegion d
  let workspaceID := d.workspace_id
  let getRuleHttpUrl := "v1/{project_id}/security/data-classification/rule/{id}"
  let getRuleProduct := "dataarts"
  match env.NewServiceClient getRuleProduct region with
  | .error err =>
    ⟨d, [], [], .returned (diagErrorf "error creating DataArts Studio V1 Client: %s" [.err err])⟩
  | .ok getRuleClient =>
    let getRulePath := getRuleClient.Endpoint ++ getRuleHttpUrl
    let getRulePath := stringsReplaceAll getRulePath "{project_id}" getRuleClient.ProjectID
    let getRulePath := stringsReplaceAll getRulePath "{id}" d.Id
    let getRuleOpt : RequestOpts :=
      { KeepResponseBody := true, MoreHeaders := [("workspace", workspaceID)], JSONBody := none }
    match env.Request getRuleClient "GET" getRulePath getRuleOpt with
    | .error err =>
      let r := CheckDeletedDiag d (parseSecurityRuleError env.Unmarshal err)
        "error retrieving DataArts Security data recognition rule"
      ⟨r.1, [⟨"GET", getRulePath, getRuleOpt⟩], [], .returned r.2⟩
    | .ok getRuleResp =>
      match env.FlattenResponse getRuleResp with
      | .error err => ⟨d, [⟨"GET", getRulePath, getRuleOpt⟩], [], .returned (diagFromErr err)⟩
      | .ok getRuleRespBody =>
        let r := runSets d (readAssignments region getRuleRespBody)
        ⟨r.d, [⟨"GET", getRulePath, getRuleOpt⟩], r.sets, r.outcome⟩

/-- Source lines 140-178. -/
def resourceSecurityRuleCreate (env : Env) (d : ResourceData) : OpResult :=
  let region := env.GetRegion d
  let createRuleHttpUrl := "v1/{project_id}/security/data-classification/rule"
  let createRuleProduct := "dataarts"
  match env.NewServiceClient createRuleProduct region with
  | .error err =>
    ⟨d, [], [], .returned (diagErrorf "error creating DataArts Studio V1 client: %s" [.err err])⟩
  | .ok createRuleClient =>
    let createRulePath := createRuleClient.Endpoint ++ createRuleHttpUrl
    let createRulePath := stringsReplaceAll createRulePath "{project_id}" createRuleClient.ProjectID
    let createRuleOpt : RequestOpts :=
      { KeepResponseBody := true, MoreHeaders := [("workspace", d.workspace_id)],
        JSONBody := some (RemoveNil (buildCreateOrUpdateSecurityRuleBodyParams d)) }
    match env.Request createRuleClient "POST" createRulePath createRuleOpt with
    | .error err =>
      ⟨d, [⟨"POST", createRulePath, createRuleOpt⟩], [], .returned (diagErrorf
        "error creating DataArts Security data recognition rule: %s" [.err err])⟩
    | .ok createRuleResp =>
      match env.FlattenResponse createRuleResp with
      | .error err => ⟨d, [⟨"POST", createRulePath, createRuleOpt⟩], [], .returned (diagFromErr err)⟩
      | .ok createRuleRespBody =>
        match jmespathSearch "uuid" createRuleRespBody with
        | .error _ =>
          ⟨d, [⟨"POST", createRulePath, createRuleOpt⟩], [], .returned (diagErrorf
            "error creating DataArts Security data recognition rule: ID is not found in API response"
            [])⟩
        | .ok .null =>
          ⟨d, [⟨"POST", createRulePath, createRuleOpt⟩], [], .returned (diagErrorf
            "error creating DataArts Security data recognition rule: ID is not found in API response"
            [])⟩
        | .ok id =>
          match assertString id with
          | .error p => ⟨d, [⟨"POST", createRulePath, createRuleOpt⟩], [], .panicked p⟩
          | .ok s =>
            let r := resourceSecurityRuleRead env (d.SetId s)
            ⟨r.d, ⟨"POST", createRulePath, createRuleOpt⟩ :: r.calls, r.sets, r.outcome⟩

/-- Source lines 254-281. -/
def resourceSecurityRuleUpdate (env : Env) (d : ResourceData) : OpResult :=
  let region := env.GetRegion d
  let updateRuleHttpUrl := "v1/{project_id}/security/data-classification/rule/{id}"
  let updateRuleProduct := "dataarts"
  match env.NewServiceClient updateRuleProduct region with
  | .error err =>
    ⟨d, [], [], .returned (diagErrorf "error creating DataArts Studio V1 Client: %s" [.err err])⟩
  | .ok updateRuleClient =>
    let updateRulePath := updateRuleClient.Endpoint ++ updateRuleHttpUrl
    let updateRulePath := stringsReplaceAll updateRulePath "{project_id}" updateRuleClient.ProjectID
    let updateRulePath := stringsReplaceAll updateRulePath "{id}" d.Id
    let updateRuleOpt : RequestOpts :=
      { KeepResponseBody := true, MoreHeaders := [("workspace", d.workspace_id)],
        JSONBody := some (RemoveNil (buildCreateOrUpdateSecurityRuleBodyParams d)) }
    match env.Request updateRuleClient "PUT" updateRulePath updateRuleOpt with
    | .error err =>
      ⟨d, [⟨"PUT", updateRulePath, updateRuleOpt⟩], [], .returned (diagErrorf
        "error updating DataArts Security data recognition rule: %s" [.err err])⟩
    | .ok _ =>
      let r := resourceSecurityRuleRead env d
      ⟨r.d, ⟨"PUT", updateRulePath, updateRuleOpt⟩ :: r.calls, r.sets, r.outcome⟩

/-- Source lines 283-309. -/
def resourceSecurityRuleDelete (env : Env) (d : ResourceData) : OpResult :=
  let region := env.GetRegion d
  let deleteRuleHttpUrl := "v1/{project_id}/security/data-classification/rule/{id}"
  let deleteRuleProduct := "dataarts"
  match env.NewServiceClient deleteRuleProduct region with
  | .error err =>
    ⟨d, [], [], .returned (diagErrorf "error creating DataArts Studio V1 Client: %s" [.err err])⟩
  | .ok deleteRuleClient =>
    let deleteRulePath := deleteRuleClient.Endpoint ++ deleteRuleHttpUrl
    let deleteRulePath := stringsReplaceAll deleteRulePath "{project_id}" deleteRuleClient.ProjectID
    let deleteRulePath := stringsReplaceAll deleteRulePath "{id}" d.Id
    let deleteRuleOpt : RequestOpts :=
      { KeepResponseBody := true, MoreHeaders := [("workspace", d.workspace_id)], JSONBody := none }
    match env.Request deleteRuleClient "DELETE" deleteRulePath deleteRuleOpt with
    | .error err =>
      ⟨d, [⟨"DELETE", deleteRulePath, deleteRuleOpt⟩], [], .returned (diagErrorf
        "error deleting DataArts Security data recognition rule: %s" [.err err])⟩
    | .ok _ => ⟨d, [⟨"DELETE", deleteRulePath, deleteRuleOpt⟩], [], .returned []⟩

/-! ## Names for what the operations compute -/

/-- The URL of the create request, source lines 152-153. -/
def createPath (client : ServiceClient) : String :=
  stringsReplaceAll (client.Endpoint ++ "v1/{project_id}/security/data-classification/rule")
    "{project_id}" client.ProjectID

/-- The URL of the read, update and delete requests, source lines 193-195,
265-267 and 294-296. -/
def rulePath (client : ServiceClient) (id : String) : String :=
  stringsReplaceAll
    (stringsReplaceAll (client.Endpoint ++ "v1/{project_id}/security/data-classification/rule/{id}")
      "{project_id}" client.ProjectID)
    "{id}" id

/-- The request options of Read and Delete, source lines 197-200 and 298-301. -/
def headerOpts (d : ResourceData) : RequestOpts :=
  { KeepResponseBody := true, MoreHeaders := [("workspace", d.workspace_id)], JSONBody := none }

/-- The request options of Create and Update, source lines 155-159 and 269-274. -/
def bodyOpts (d : ResourceData) : RequestOpts :=
  { KeepResponseBody := true, MoreHeaders := [("workspace", d.workspace_id)],
    JSONBody := some (RemoveNil (buildCreateOrUpdateSecurityRuleBodyParams d)) }

/-- An optional field is sent under `key` exactly when its configured value is
not empty, and then with that value. -/
def SentIffNonEmpty (body : List (String × Json)) (key value : String) : Prop :=
  ((∃ v, (key, v) ∈ body) ↔ value ≠ "") ∧ ∀ v, (key, v) ∈ body → v = .str value

/-- The diagnostics of a Create whose response carries no id, source line 172. -/
def idNotFound : Diagnostics :=
  diagErrorf "error creating DataArts Security data recognition rule: ID is not found in API response" []

/-- The diagnostics of a not-found Read. -/
def notFoundWarning : Diagnostics :=
  [⟨.Warning, "Resource not found", []⟩]

/-! ## Sample inputs -/

/-- A configuration before Create: three optional fields are set, four are
empty. -/
def sampleData : ResourceData :=
  { Id := "", region := "", workspace_id := "ws-1", rule_type := "CUSTOM",
    secrecy_level_id := "lvl-1", name := "rule-a", builtin_rule_id := "",
    content_expression := "^a+$", column_expression := "", comment_expression := "remark",
    description := "", category_id := "", method := "REGULAR", secrecy_level := "",
    secrecy_level_num := 0, enable := false, created_at := "", created_by := "",
    updated_at := "", updated_by := "" }

/-- The same rule once created. -/
def sampleStored : ResourceData :=
  { sampleData with Id := "rule-1", region := "cn-north-4" }

def sampleClient : ServiceClient :=
  ⟨"https://dataarts.example.com/", "proj-1"⟩

/-- A create response with an id. -/
def createdText : String := "\x7b\"uuid\":\"rule-1\"\x7d"

/-- A create response whose id is the empty string. -/
def emptyUuidText : String := "\x7b\"uuid\":\"\"\x7d"

/-- A create response without an id. -/
def noUuidText : String := "\x7b\"name\":\"rule-a\"\x7d"

/-- A rule as the server returns it. -/
def ruleText : String :=
  "\x7b\"uuid\":\"rule-1\",\"name\":\"rule-a\",\"rule_type\":\"CUSTOM\",\"method\":\"REGULAR\"," ++
  "\"content_expression\":\"^a+$\",\"commit_expression\":\"remark\",\"region\":\"cn-south-1\"," ++
  "\"workspace_id\":\"ws-9\",\"secrecy_level_id\":\"lvl-9\",\"secrecy_level\":\"L1\"," ++
  "\"secrecy_level_num\":1,\"enable\":true,\"created_at\":1700000000000," ++
  "\"updated_at\":1700000000999,\"created_by\":\"alice\",\"updated_by\":\"bob\"\x7d"

/-- A rule as the server returns it, without `created_at`. -/
def ruleNoCreatedAtText : String :=
  "\x7b\"name\":\"rule-a\",\"updated_at\":1700000000999,\"created_by\":\"alice\"," ++
  "\"updated_by\":\"bob\"\x7d"

/-- The error body of a rule that does not exist. -/
def notFoundText : String :=
  "\x7b\"error_code\":\"DLS.4106\",\"error_msg\":\"Rule is not exist.\"\x7d"

/-- The error body of another failure. -/
def otherCodeText : String :=
  "\x7b\"error_code\":\"DLS.1000\",\"error_msg\":\"Internal error.\"\x7d"

def sampleRule : Json :=
  .obj [ ("uuid", .str "rule-1"), ("name", .str "rule-a"), ("rule_type", .str "CUSTOM"),
    ("method", .str "REGULAR"), ("content_expression", .str "^a+$"),
    ("commit_expression", .str "remark"), ("region", .str "cn-south-1"),
    ("workspace_id", .str "ws-9"), ("secrecy_level_id", .str "lvl-9"),
    ("secrecy_level", .str "L1"), ("secrecy_level_num", .num 1), ("enable", .bool true),
    ("created_at", .num 1700000000000), ("updated_at", .num 1700000000999),
    ("created_by", .str "alice"), ("updated_by", .str "bob") ]

def sampleRuleNoCreatedAt : Json :=
  .obj [ ("name", .str "rule-a"), ("updated_at", .num 1700000000999),
    ("created_by", .str "alice"), ("updated_by", .str "bob") ]

/-- A JSON decoder that knows the sample texts. -/
def sampleDecode (text : String) : Except GoError Json :=
  if text = createdText then .ok (.obj [("uuid", .str "rule-1")])
  else if text = emptyUuidText then .ok (.obj [("uuid", .str "")])
  else if text = noUuidText then .ok (.obj [("name", .str "rule-a")])
  else if text = ruleText then .ok sampleRule
  else if text = ruleNoCreatedAtText then .ok sampleRuleNoCreatedAt
  else if text = notFoundText then
    .ok (.obj [("error_code", .str "DLS.4106"), ("error_msg", .str "Rule is not exist.")])
  else if text = otherCodeText then
    .ok (.obj [("error_code", .str "DLS.1000"), ("error_msg", .str "Internal error.")])
  else .error (.other "invalid character looking for beginning of value")

/-- An HTTP 400 error with the given body. -/
def badRequest (body : String) : GoError :=
  .ErrDefault400 ⟨"https://dataarts.example.com/v1/proj-1/security/data-classification/rule/rule-1",
    "GET", [200], 400, body⟩

/-- A server that answers each method with a fixed result. -/
def sampleEnv (post get put delete : Except GoError Response) : Env :=
  { GetRegion := fun d => if d.region = "" then "cn-north-4" else d.region,
    NewServiceClient := fun _ _ => .ok sampleClient,
    Request := fun _ method _ _ =>
      if method = "POST" then post
      else if method = "GET" then get
      else if method = "PUT" then put
      else delete,
    FlattenResponse := fun resp => sampleDecode resp.Body,
    Unmarshal := sampleDecode }

/-- A transport failure. -/
def timeoutError : GoError := .other "request timeout"

/-! ## Facts about `d.Set` -/

theorem put_Id (d : ResourceData) (a : Attr) (v : Json) : (d.put a v).Id = d.Id := by
  cases a <;> cases v <;> rfl

theorem put_get_other (d : ResourceData) (a b : Attr) (v : Json) (h : a ≠ b) :
    (d.put a v).get b = d.get b := by
  cases a <;> cases v <;> first | rfl | (cases b <;> first | rfl | exact absurd rfl h)

theorem put_get_same (d : ResourceData) (a : Attr) (key : String) (v w : Json)
    (h : decodePrimitive a.type key v = .ok w) : (d.put a w).get a = w := by
  cases a <;> cases v <;> simp [decodePrimitive, Attr.type] at h <;> subst h <;> rfl

theorem Set_of_none (d : ResourceData) (key : String) (v : Json) (ha : schemaAttr key = none) :
    d.Set key v = (d, some (.other (key ++ ": invalid address to set"))) := by
  simp only [ResourceData.Set, ha]

theorem Set_of_error (d : ResourceData) (key : String) (v : Json) (a : Attr) (e : GoError)
    (ha : schemaAttr key = some a) (h : decodePrimitive a.type key v = .error e) :
    d.Set key v = (d, some e) := by
  simp only [ResourceData.Set, ha, h]

theorem Set_of_ok (d : ResourceData) (key : String) (v w : Json) (a : Attr)
    (ha : schemaAttr key = some a) (h : decodePrimitive a.type key v = .ok w) :
    d.Set key v = (d.put a w, none) := by
  simp only [ResourceData.Set, ha, h]

theorem Set_Id (d : ResourceData) (key : String) (v : Json) : (d.Set key v).1.Id = d.Id := by
  cases ha : schemaAttr key with
  | none => rw [Set_of_none d key v ha]
  | some a =>
    cases h : decodePrimitive a.type key v with
    | error e => rw [Set_of_error d key v a e ha h]
    | ok w => rw [Set_of_ok d key v w a ha h]; exact put_Id d a w

theorem Set_get_other (d : ResourceData) (key : String) (v : Json) (b : Attr)
    (hb : schemaAttr key ≠ some b) : ((d.Set key v).1).get b = d.get b := by
  cases ha : schemaAttr key with
  | none => rw [Set_of_none d key v ha]
  | some a =>
    cases h : decodePrimitive a.type key v with
    | error e => rw [Set_of_error d key v a e ha h]
    | ok w =>
      rw [Set_of_ok d key v w a ha h]
      refine put_get_other d a b w ?_
      intro hab
      exact hb (by rw [ha, hab])

theorem Set_get_same (d : ResourceData) (key : String) (v w : Json) (a : Attr)
    (ha : schemaAttr key = some a) (h : decodePrimitive a.type key v = .ok w) :
    ((d.Set key v).1).get a = w := by
  rw [Set_of_ok d key v w a ha h]
  exact put_get_same d a key v w h

theorem Set_no_error (d : ResourceData) (key : String) (v : Json) (h : (d.Set key v).2 = none) :
    ∃ a w, schemaAttr key = some a ∧ decodePrimitive a.type key v = .ok w := by
  cases ha : schemaAttr key with
  | none => rw [Set_of_none d key v ha] at h; cases h
  | some a =>
    cases hd : decodePrimitive a.type key v with
    | error e => rw [Set_of_error d key v a e ha hd] at h; cases h
    | ok w => exact ⟨a, w, rfl, hd⟩

/-! ## Facts about the evaluation of the assignments -/

theorem runSets_Id (l : List (String × Except String Json)) (d : ResourceData) :
    (runSets d l).d.Id = d.Id := by
  induction l generalizing d with
  | nil => rfl
  | cons kv rest ih =>
    obtain ⟨key, val⟩ := kv
    cases val with
    | error p => rfl
    | ok v =>
      simp only [runSets]
      rw [ih, Set_Id]

theorem runSets_get_other (b : Attr) (l : List (String × Except String Json))
    (hl : ∀ kv ∈ l, schemaAttr kv.1 ≠ some b) (d : ResourceData) :
    (runSets d l).d.get b = d.get b := by
  induction l generalizing d with
  | nil => rfl
  | cons kv rest ih =>
    obtain ⟨key, val⟩ := kv
    cases val with
    | error p => rfl
    | ok v =>
      simp only [runSets]
      rw [ih (fun x hx => hl x (List.mem_cons_of_mem _ hx)),
        Set_get_other d key v b (hl (key, .ok v) (List.mem_cons_self _ _))]

/-- When no argument panics, a value that the schema accepts is what the
attribute holds at the end, provided no later assignment addresses the same
attribute. -/
theorem runSets_get_same (a : Attr) (key : String) (v w : Json)
    (ha : schemaAttr key = some a) (hw : decodePrimitive a.type key v = .ok w)
    (l : List (String × Except String Json))
    (hkeys : (l.map fun kv => schemaAttr kv.1).Nodup)
    (hmem : (key, Except.ok v) ∈ l) (d : ResourceData)
    (hpanic : (runSets d l).panic = none) :
    (runSets d l).d.get a = w := by
  induction l generalizing d with
  | nil => cases hmem
  | cons kv rest ih =>
    obtain ⟨k, val⟩ := kv
    rw [List.map_cons, List.nodup_cons] at hkeys
    cases val with
    | error p => simp [runSets] at hpanic
    | ok x =>
      simp only [runSets] at hpanic ⊢
      rcases List.mem_cons.mp hmem with heq | hin
      · obtain ⟨hk, hx⟩ := Prod.mk.inj heq
        have hx2 : v = x := by injection hx
        subst hk; subst hx2
        rw [runSets_get_other a rest ?_ _, Set_get_same d key v w a ha hw]
        intro y hy hya
        exact hkeys.1 (List.mem_map.mpr ⟨y, hy, by rw [hya, ha]⟩)
      · exact ih hkeys.2 hin _ hpanic

/-- When no error is collected, every assignment was accepted by the schema. -/
theorem runSets_no_error (l : List (String × Except String Json)) (d : ResourceData)
    (herrs : (runSets d l).errs = []) (key : String) (v : Json)
    (hmem : (key, Except.ok v) ∈ l) (hpanic : (runSets d l).panic = none) :
    ∃ a w, schemaAttr key = some a ∧ decodePrimitive a.type key v = .ok w := by
  induction l generalizing d with
  | nil => cases hmem
  | cons kv rest ih =>
    obtain ⟨k, val⟩ := kv
    cases val with
    | error p => simp [runSets] at hpanic
    | ok x =>
      simp only [runSets, List.append_eq_nil] at herrs hpanic
      rcases List.mem_cons.mp hmem with heq | hin
      · obtain ⟨hk, hx⟩ := Prod.mk.inj heq
        have hx2 : v = x := by injection hx
        subst hk; subst hx2
        refine Set_no_error d key v ?_
        cases hs : (d.Set key v).2 with
        | none => rfl
        | some e => rw [hs] at herrs; simp at herrs
      · exact ih _ herrs.2 hin hpanic

/-! ## Facts about the error remap -/

theorem ifaceEqString_false (v : Json) (s : String) (h : v ≠ .str s) :
    ifaceEqString v s = false := by
  cases v with
  | str t =>
    have hts : t ≠ s := fun e => h (by rw [e])
    simpa [ifaceEqString] using hts
  | null => rfl
  | bool b => rfl
  | num n => rfl
  | arr xs => rfl
  | obj kvs => rfl

theorem CheckDeletedDiag_of_404 (d : ResourceData) (e : ErrUnexpectedResponseCode) (msg : String) :
    CheckDeletedDiag d (.ErrDefault404 e) msg = (d.SetId "", notFoundWarning) := rfl

/-! ## The operations case by case -/

theorem read_of_client_error (env : Env) (d : ResourceData) (err : GoError)
    (hclient : env.NewServiceClient "dataarts" (env.GetRegion d) = .error err) :
    resourceSecurityRuleRead env d
      = ⟨d, [], [], .returned (diagErrorf "error creating DataArts Studio V1 Client: %s" [.err err])⟩ := by
  simp only [resourceSecurityRuleRead, hclient]

theorem read_of_get_error (env : Env) (d : ResourceData) (client : ServiceClient) (err : GoError)
    (hclient : env.NewServiceClient "dataarts" (env.GetRegion d) = .ok client)
    (hget : env.Request client "GET" (rulePath client d.Id) (headerOpts d) = .error err) :
    resourceSecurityRuleRead env d
      = ⟨(CheckDeletedDiag d (parseSecurityRuleError env.Unmarshal err)
            "error retrieving DataArts Security data recognition rule").1,
          [⟨"GET", rulePath client d.Id, headerOpts d⟩], [],
          .returned (CheckDeletedDiag d (parseSecurityRuleError env.Unmarshal err)
            "error retrieving DataArts Security data recognition rule").2⟩ := by
  unfold rulePath headerOpts at hget
  simp only [resourceSecurityRuleRead, hclient, hget, rulePath, headerOpts]

theorem read_of_flatten_error (env : Env) (d : ResourceData) (client : ServiceClient)
    (resp : Response) (err : GoError)
    (hclient : env.NewServiceClient "dataarts" (env.GetRegion d) = .ok client)
    (hget : env.Request client "GET" (rulePath client d.Id) (headerOpts d) = .ok resp)
    (hflat : env.FlattenResponse resp = .error err) :
    resourceSecurityRuleRead env d
      = ⟨d, [⟨"GET", rulePath client d.Id, headerOpts d⟩], [], .returned (diagFromErr err)⟩ := by
  unfold rulePath headerOpts at hget
  simp only [resourceSecurityRuleRead, hclient, hget, hflat, rulePath, headerOpts]

theorem read_of_body (env : Env) (d : ResourceData) (client : ServiceClient)
    (resp : Response) (body : Json)
    (hclient : env.NewServiceClient "dataarts" (env.GetRegion d) = .ok client)
    (hget : env.Request client "GET" (rulePath client d.Id) (headerOpts d) = .ok resp)
    (hflat : env.FlattenResponse resp = .ok body) :
    resourceSecurityRuleRead env d
      = ⟨(runSets d (readAssignments (env.GetRegion d) body)).d,
          [⟨"GET", rulePath client d.Id, headerOpts d⟩],
          (runSets d (readAssignments (env.GetRegion d) body)).sets,
          (runSets d (readAssignments (env.GetRegion d) body)).outcome⟩ := by
  unfold rulePath headerOpts at hget
  simp only [resourceSecurityRuleRead, hclient, hget, hflat, rulePath, headerOpts]

theorem create_of_client_error (env : Env) (d : ResourceData) (err : GoError)
    (hclient : env.NewServiceClient "dataarts" (env.GetRegion d) = .error err) :
    resourceSecurityRuleCreate env d
      = ⟨d, [], [], .returned (diagErrorf "error creating DataArts Studio V1 client: %s" [.err err])⟩ := by
  simp only [resourceSecurityRuleCreate, hclient]

theorem create_of_post_error (env : Env) (d : ResourceData) (client : ServiceClient) (err : GoError)
    (hclient : env.NewServiceClient "dataarts" (env.GetRegion d) = .ok client)
    (hpost : env.Request client "POST" (createPath client) (bodyOpts d) = .error err) :
    resourceSecurityRuleCreate env d
      = ⟨d, [⟨"POST", createPath client, bodyOpts d⟩], [], .returned (diagErrorf
          "error creating DataArts Security data recognition rule: %s" [.err err])⟩ := by
  unfold createPath bodyOpts at hpost
  simp only [resourceSecurityRuleCreate, hclient, hpost, createPath, bodyOpts]

theorem create_of_flatten_error (env : Env) (d : ResourceData) (client : ServiceClient)
    (resp : Response) (err : GoError)
    (hclient : env.NewServiceClient "dataarts" (env.GetRegion d) = .ok client)
    (hpost : env.Request client "POST" (createPath client) (bodyOpts d) = .ok resp)
    (hflat : env.FlattenResponse resp = .error err) :
    resourceSecurityRuleCreate env d
      = ⟨d, [⟨"POST", createPath client, bodyOpts d⟩], [], .returned (diagFromErr err)⟩ := by
  unfold createPath bodyOpts at hpost
  simp only [resourceSecurityRuleCreate, hclient, hpost, hflat, createPath, bodyOpts]

theorem create_of_no_uuid (env : Env) (d : ResourceData) (client : ServiceClient)
    (resp : Response) (body : Json)
    (hclient : env.NewServiceClient "dataarts" (env.GetRegion d) = .ok client)
    (hpost : env.Request client "POST" (createPath client) (bodyOpts d) = .ok resp)
    (hflat : env.FlattenResponse resp = .ok body)
    (huuid : jmespathSearch "uuid" body = .ok .null ∨ ∃ e, jmespathSearch "uuid" body = .error e) :
    resourceSecurityRuleCreate env d
      = ⟨d, [⟨"POST", createPath client, bodyOpts d⟩], [], .returned idNotFound⟩ := by
  unfold createPath bodyOpts at hpost
  rcases huuid with h | ⟨e, h⟩ <;>
    simp only [resourceSecurityRuleCreate, hclient, hpost, hflat, h, createPath, bodyOpts,
      idNotFound]

theorem create_of_uuid (env : Env) (d : ResourceData) (client : ServiceClient)
    (resp : Response) (body id : Json)
    (hclient : env.NewServiceClient "dataarts" (env.GetRegion d) = .ok client)
    (hpost : env.Request client "POST" (createPath client) (bodyOpts d) = .ok resp)
    (hflat : env.FlattenResponse resp = .ok body)
    (huuid : jmespathSearch "uuid" body = .ok id) (hid : id ≠ .null) :
    resourceSecurityRuleCreate env d
      = match assertString id with
        | .error p => ⟨d, [⟨"POST", createPath client, bodyOpts d⟩], [], .panicked p⟩
        | .ok s =>
          ⟨(resourceSecurityRuleRead env (d.SetId s)).d,
            ⟨"POST", createPath client, bodyOpts d⟩ :: (resourceSecurityRuleRead env (d.SetId s)).calls,
            (resourceSecurityRuleRead env (d.SetId s)).sets,
            (resourceSecurityRuleRead env (d.SetId s)).outcome⟩ := by
  unfold createPath bodyOpts at hpost
  cases id with
  | null => exact absurd rfl hid
  | bool b => simp only [resourceSecurityRuleCreate, hclient, hpost, hflat, huuid, createPath, bodyOpts]
  | num n => simp only [resourceSecurityRuleCreate, hclient, hpost, hflat, huuid, createPath, bodyOpts]
  | str s => simp only [resourceSecurityRuleCreate, hclient, hpost, hflat, huuid, createPath, bodyOpts]
  | arr xs => simp only [resourceSecurityRuleCreate, hclient, hpost, hflat, huuid, createPath, bodyOpts]
  | obj kvs => simp only [resourceSecurityRuleCreate, hclient, hpost, hflat, huuid, createPath, bodyOpts]

theorem update_of_client_error (env : Env) (d : ResourceData) (err : GoError)
    (hclient : env.NewServiceClient "dataarts" (env.GetRegion d) = .error err) :
    resourceSecurityRuleUpdate env d
      = ⟨d, [], [], .returned (diagErrorf "error creating DataArts Studio V1 Client: %s" [.err err])⟩ := by
  simp only [resourceSecurityRuleUpdate, hclient]

theorem update_of_put_error (env : Env) (d : ResourceData) (client : ServiceClient) (err : GoError)
    (hclient : env.NewServiceClient "dataarts" (env.GetRegion d) = .ok client)
    (hput : env.Request client "PUT" (rulePath client d.Id) (bodyOpts d) = .error err) :
    resourceSecurityRuleUpdate env d
      = ⟨d, [⟨"PUT", rulePath client d.Id, bodyOpts d⟩], [], .returned (diagErrorf
          "error updating DataArts Security data recognition rule: %s" [.err err])⟩ := by
  unfold rulePath bodyOpts at hput
  simp only [resourceSecurityRuleUpdate, hclient, hput, rulePath, bodyOpts]

theorem update_of_put_ok (env : Env) (d : ResourceData) (client : ServiceClient) (resp : Response)
    (hclient : env.NewServiceClient "dataarts" (env.GetRegion d) = .ok client)
    (hput : env.Request client "PUT" (rulePath client d.Id) (bodyOpts d) = .ok resp) :
    resourceSecurityRuleUpdate env d
      = ⟨(resourceSecurityRuleRead env d).d,
          ⟨"PUT", rulePath client d.Id, bodyOpts d⟩ :: (resourceSecurityRuleRead env d).calls,
          (resourceSecurityRuleRead env d).sets, (resourceSecurityRuleRead env d).outcome⟩ := by
  unfold rulePath bodyOpts at hput
  simp only [resourceSecurityRuleUpdate, hclient, hput, rulePath, bodyOpts]

theorem delete_of_client_error (env : Env) (d : ResourceData) (err : GoError)
    (hclient : env.NewServiceClient "dataarts" (env.GetRegion d) = .error err) :
    resourceSecurityRuleDelete env d
      = ⟨d, [], [], .returned (diagErrorf "error creating DataArts Studio V1 Client: %s" [.err err])⟩ := by
  simp only [resourceSecurityRuleDelete, hclient]

theorem delete_of_request_error (env : Env) (d : ResourceData) (client : ServiceClient)
    (err : GoError)
    (hclient : env.NewServiceClient "dataarts" (env.GetRegion d) = .ok client)
    (hdel : env.Request client "DELETE" (rulePath client d.Id) (headerOpts d) = .error err) :
    resourceSecurityRuleDelete env d
      = ⟨d, [⟨"DELETE", rulePath client d.Id, headerOpts d⟩], [], .returned (diagErrorf
          "error deleting DataArts Security data recognition rule: %s" [.err err])⟩ := by
  unfold rulePath headerOpts at hdel
  simp only [resourceSecurityRuleDelete, hclient, hdel, rulePath, headerOpts]

theorem delete_of_request_ok (env : Env) (d : ResourceData) (client : ServiceClient)
    (resp : Response)
    (hclient : env.NewServiceClient "dataarts" (env.GetRegion d) = .ok client)
    (hdel : env.Request client "DELETE" (rulePath client d.Id) (headerOpts d) = .ok resp) :
    resourceSecurityRuleDelete env d
      = ⟨d, [⟨"DELETE", rulePath client d.Id, headerOpts d⟩], [], .returned []⟩ := by
  unfold rulePath headerOpts at hdel
  simp only [resourceSecurityRuleDelete, hclient, hdel, rulePath, headerOpts]

theorem create_of_uuid_string (env : Env) (d : ResourceData) (client : ServiceClient)
    (resp : Response) (body : Json) (id : String)
    (hclient : env.NewServiceClient "dataarts" (env.GetRegion d) = .ok client)
    (hpost : env.Request client "POST" (createPath client) (bodyOpts d) = .ok resp)
    (hflat : env.FlattenResponse resp = .ok body)
    (huuid : jmespathSearch "uuid" body = .ok (.str id)) :
    resourceSecurityRuleCreate env d
      = ⟨(resourceSecurityRuleRead env (d.SetId id)).d,
          ⟨"POST", createPath client, bodyOpts d⟩ :: (resourceSecurityRuleRead env (d.SetId id)).calls,
          (resourceSecurityRuleRead env (d.SetId id)).sets,
          (resourceSecurityRuleRead env (d.SetId id)).outcome⟩ := by
  rw [create_of_uuid env d client resp body (.str id) hclient hpost hflat huuid (by simp)]
  rfl

theorem create_of_uuid_other (env : Env) (d : ResourceData) (client : ServiceClient)
    (resp : Response) (body id : Json) (p : String)
    (hclient : env.NewServiceClient "dataarts" (env.GetRegion d) = .ok client)
    (hpost : env.Request client "POST" (createPath client) (bodyOpts d) = .ok resp)
    (hflat : env.FlattenResponse resp = .ok body)
    (huuid : jmespathSearch "uuid" body = .ok id) (hid : id ≠ .null)
    (hassert : assertString id = .error p) :
    resourceSecurityRuleCreate env d
      = ⟨d, [⟨"POST", createPath client, bodyOpts d⟩], [], .panicked p⟩ := by
  rw [create_of_uuid env d client resp body id hclient hpost hflat huuid hid, hassert]

theorem assertString_cases (id : Json) :
    (∃ s, id = .str s) ∨ ∃ p, assertString id = .error p := by
  cases id with
  | str s => exact Or.inl ⟨s, rfl⟩
  | null => exact Or.inr ⟨_, rfl⟩
  | bool b => exact Or.inr ⟨_, rfl⟩
  | num n => exact Or.inr ⟨_, rfl⟩
  | arr xs => exact Or.inr ⟨_, rfl⟩
  | obj kvs => exact Or.inr ⟨_, rfl⟩

/-! ## The requests each operation issues -/

theorem read_calls (env : Env) (d : ResourceData) :
    ∀ c ∈ (resourceSecurityRuleRead env d).calls, c.method = "GET" ∧ c.opts = headerOpts d := by
  intro c hc
  cases hclient : env.NewServiceClient "dataarts" (env.GetRegion d) with
  | error err => rw [read_of_client_error env d err hclient] at hc; cases hc
  | ok client =>
    cases hget : env.Request client "GET" (rulePath client d.Id) (headerOpts d) with
    | error err =>
      rw [read_of_get_error env d client err hclient hget] at hc
      rw [List.mem_singleton.mp hc]; exact ⟨rfl, rfl⟩
    | ok resp =>
      cases hflat : env.FlattenResponse resp with
      | error err =>
        rw [read_of_flatten_error env d client resp err hclient hget hflat] at hc
        rw [List.mem_singleton.mp hc]; exact ⟨rfl, rfl⟩
      | ok body =>
        rw [read_of_body env d client resp body hclient hget hflat] at hc
        rw [List.mem_singleton.mp hc]; exact ⟨rfl, rfl⟩

theorem create_calls (env : Env) (d : ResourceData) :
    ∀ c ∈ (resourceSecurityRuleCreate env d).calls,
      (c.method = "POST" ∧ c.opts = bodyOpts d) ∨ (c.method = "GET" ∧ c.opts = headerOpts d) := by
  intro c hc
  cases hclient : env.NewServiceClient "dataarts" (env.GetRegion d) with
  | error err => rw [create_of_client_error env d err hclient] at hc; cases hc
  | ok client =>
    cases hpost : env.Request client "POST" (createPath client) (bodyOpts d) with
    | error err =>
      rw [create_of_post_error env d client err hclient hpost] at hc
      rw [List.mem_singleton.mp hc]; exact Or.inl ⟨rfl, rfl⟩
    | ok resp =>
      cases hflat : env.FlattenResponse resp with
      | error err =>
        rw [create_of_flatten_error env d client resp err hclient hpost hflat] at hc
        rw [List.mem_singleton.mp hc]; exact Or.inl ⟨rfl, rfl⟩
      | ok body =>
        cases huuid : jmespathSearch "uuid" body with
        | error e =>
          rw [create_of_no_uuid env d client resp body hclient hpost hflat (Or.inr ⟨e, huuid⟩)] at hc
          rw [List.mem_singleton.mp hc]; exact Or.inl ⟨rfl, rfl⟩
        | ok id =>
          by_cases hnull : id = .null
          · subst hnull
            rw [create_of_no_uuid env d client resp body hclient hpost hflat (Or.inl huuid)] at hc
            rw [List.mem_singleton.mp hc]; exact Or.inl ⟨rfl, rfl⟩
          · rcases assertString_cases id with ⟨s, hs⟩ | ⟨p, hp⟩
            · subst hs
              rw [create_of_uuid_string env d client resp body s hclient hpost hflat huuid] at hc
              rcases List.mem_cons.mp hc with h | h
              · rw [h]; exact Or.inl ⟨rfl, rfl⟩
              · exact Or.inr (read_calls env (d.SetId s) c h)
            · rw [create_of_uuid_other env d client resp body id p hclient hpost hflat huuid hnull hp]
                at hc
              rw [List.mem_singleton.mp hc]; exact Or.inl ⟨rfl, rfl⟩

theorem update_calls (env : Env) (d : ResourceData) :
    ∀ c ∈ (resourceSecurityRuleUpdate env d).calls,
      (c.method = "PUT" ∧ c.opts = bodyOpts d) ∨ (c.method = "GET" ∧ c.opts = headerOpts d) := by
  intro c hc
  cases hclient : env.NewServiceClient "dataarts" (env.GetRegion d) with
  | error err => rw [update_of_client_error env d err hclient] at hc; cases hc
  | ok client =>
    cases hput : env.Request client "PUT" (rulePath client d.Id) (bodyOpts d) with
    | error err =>
      rw [update_of_put_error env d client err hclient hput] at hc
      rw [List.mem_singleton.mp hc]; exact Or.inl ⟨rfl, rfl⟩
    | ok resp =>
      rw [update_of_put_ok env d client resp hclient hput] at hc
      rcases List.mem_cons.mp hc with h | h
      · rw [h]; exact Or.inl ⟨rfl, rfl⟩
      · exact Or.inr (read_calls env d c h)

theorem delete_calls (env : Env) (d : ResourceData) :
    ∀ c ∈ (resourceSecurityRuleDelete env d).calls, c.method = "DELETE" ∧ c.opts = headerOpts d := by
  intro c hc
  cases hclient : env.NewServiceClient "dataarts" (env.GetRegion d) with
  | error err => rw [delete_of_client_error env d err hclient] at hc; cases hc
  | ok client =>
    cases hdel : env.Request client "DELETE" (rulePath client d.Id) (headerOpts d) with
    | error err =>
      rw [delete_of_request_error env d client err hclient hdel] at hc
      rw [List.mem_singleton.mp hc]; exact ⟨rfl, rfl⟩
    | ok resp =>
      rw [delete_of_request_ok env d client resp hclient hdel] at hc
      rw [List.mem_singleton.mp hc]; exact ⟨rfl, rfl⟩

/-! ## Facts about the request body -/

theorem mem_RemoveNil (data : List (String × Json)) (k : String) (v : Json) :
    (k, v) ∈ RemoveNil data ↔ (k, v) ∈ data ∧ v ≠ .null := by
  unfold RemoveNil
  rw [List.mem_filter]
  cases v <;> simp

theorem ValueIngoreEmpty_ne_null (s : String) : ValueIngoreEmpty s ≠ .null ↔ s ≠ "" := by
  unfold ValueIngoreEmpty
  split_ifs with h <;> simp [h]

theorem ValueIngoreEmpty_of_ne (s : String) (h : s ≠ "") : ValueIngoreEmpty s = .str s := by
  simp [ValueIngoreEmpty, h]

/-- A key that the builder fills with `ValueIngoreEmpty s`, and with nothing
else, is sent exactly when `s` is not empty. -/
theorem sentIffNonEmpty_of_entry (data : List (String × Json)) (key s : String)
    (h : ∀ v, (key, v) ∈ data ↔ v = ValueIngoreEmpty s) :
    SentIffNonEmpty (RemoveNil data) key s := by
  unfold SentIffNonEmpty
  simp only [mem_RemoveNil, h]
  refine ⟨⟨?_, ?_⟩, ?_⟩
  · rintro ⟨v, hv, hnull⟩
    subst hv
    exact (ValueIngoreEmpty_ne_null s).mp hnull
  · intro hs
    exact ⟨ValueIngoreEmpty s, rfl, (ValueIngoreEmpty_ne_null s).mpr hs⟩
  · rintro v ⟨hv, hnull⟩
    subst hv
    exact ValueIngoreEmpty_of_ne s ((ValueIngoreEmpty_ne_null s).mp hnull)

theorem body_keys_nodup (d : ResourceData) :
    ((RemoveNil (buildCreateOrUpdateSecurityRuleBodyParams d)).map Prod.fst).Nodup := by
  have hsub : ((RemoveNil (buildCreateOrUpdateSecurityRuleBodyParams d)).map Prod.fst).Sublist
      ((buildCreateOrUpdateSecurityRuleBodyParams d).map Prod.fst) :=
    (List.filter_sublist _).map Prod.fst
  refine hsub.nodup ?_
  simp only [buildCreateOrUpdateSecurityRuleBodyParams, List.map_cons, List.map_nil]
  decide

theorem create_first_call (env : Env) (d : ResourceData) (client : ServiceClient)
    (hclient : env.NewServiceClient "dataarts" (env.GetRegion d) = .ok client) :
    ∃ rest, (resourceSecurityRuleCreate env d).calls
      = ⟨"POST", createPath client, bodyOpts d⟩ :: rest := by
  cases hpost : env.Request client "POST" (createPath client) (bodyOpts d) with
  | error err => exact ⟨[], by rw [create_of_post_error env d client err hclient hpost]⟩
  | ok resp =>
    cases hflat : env.FlattenResponse resp with
    | error err => exact ⟨[], by rw [create_of_flatten_error env d client resp err hclient hpost hflat]⟩
    | ok body =>
      cases huuid : jmespathSearch "uuid" body with
      | error e =>
        exact ⟨[], by
          rw [create_of_no_uuid env d client resp body hclient hpost hflat (Or.inr ⟨e, huuid⟩)]⟩
      | ok id =>
        by_cases hnull : id = .null
        · subst hnull
          exact ⟨[], by
            rw [create_of_no_uuid env d client resp body hclient hpost hflat (Or.inl huuid)]⟩
        · rcases assertString_cases id with ⟨s, hs⟩ | ⟨p, hp⟩
          · subst hs
            exact ⟨_, by
              rw [create_of_uuid_string env d client resp body s hclient hpost hflat huuid]⟩
          · exact ⟨[], by
              rw [create_of_uuid_other env d client resp body id p hclient hpost hflat huuid hnull hp]⟩

theorem update_first_call (env : Env) (d : ResourceData) (client : ServiceClient)
    (hclient : env.NewServiceClient "dataarts" (env.GetRegion d) = .ok client) :
    ∃ rest, (resourceSecurityRuleUpdate env d).calls
      = ⟨"PUT", rulePath client d.Id, bodyOpts d⟩ :: rest := by
  cases hput : env.Request client "PUT" (rulePath client d.Id) (bodyOpts d) with
  | error err => exact ⟨[], by rw [update_of_put_error env d client err hclient hput]⟩
  | ok resp => exact ⟨_, by rw [update_of_put_ok env d client resp hclient hput]⟩

theorem mapIndex_of_no_key (key : String) (kvs : List (String × Json))
    (h : ∀ kv ∈ kvs, kv.1 ≠ key) : mapIndex key kvs = .null := by
  induction kvs with
  | nil => rfl
  | cons kv rest ih =>
    obtain ⟨k, v⟩ := kv
    have hk : k ≠ key := h (k, v) (List.mem_cons_self _ _)
    simp only [mapIndex, hk, if_false]
    exact ih fun x hx => h x (List.mem_cons_of_mem _ hx)

theorem body_has_no_workspace_id (d : ResourceData) :
    ∀ kv ∈ RemoveNil (buildCreateOrUpdateSecurityRuleBodyParams d), kv.1 ≠ "workspace_id" := by
  intro kv hkv
  have hmem : kv.1 ∈ (buildCreateOrUpdateSecurityRuleBodyParams d).map Prod.fst :=
    List.mem_map.mpr ⟨kv, (List.mem_filter.mp hkv).1, rfl⟩
  simp only [buildCreateOrUpdateSecurityRuleBodyParams, List.map_cons, List.map_nil] at hmem
  intro h
  rw [h] at hmem
  exact absurd hmem (by decide)

/-! ## Facts about Read -/

theorem CheckDeletedDiag_ne_nil (d : ResourceData) (err : GoError) (msg : String) :
    (CheckDeletedDiag d err msg).2 ≠ [] := by
  unfold CheckDeletedDiag
  cases errorsAs404 err <;> simp [diagErrorf]

theorem diagFromMultierror_eq_nil (errs : List GoError) (h : diagFromMultierror errs = []) :
    errs = [] := by
  cases errs with
  | nil => rfl
  | cons e rest => simp [diagFromMultierror] at h

theorem outcome_returned_nil (r : SetRun) (h : r.outcome = .returned []) :
    r.panic = none ∧ r.errs = [] := by
  unfold SetRun.outcome at h
  cases hp : r.panic with
  | some p => rw [hp] at h; cases h
  | none =>
    rw [hp] at h
    simp only [Outcome.returned.injEq] at h
    exact ⟨rfl, diagFromMultierror_eq_nil _ h⟩

/-- A Read that returns no diagnostics went through the assignments: the client
was created, the GET succeeded and its body was decoded. -/
theorem read_returned_nil (env : Env) (d : ResourceData)
    (h : (resourceSecurityRuleRead env d).outcome = .returned []) :
    ∃ client resp body, env.NewServiceClient "dataarts" (env.GetRegion d) = .ok client ∧
      env.Request client "GET" (rulePath client d.Id) (headerOpts d) = .ok resp ∧
      env.FlattenResponse resp = .ok body ∧
      (runSets d (readAssignments (env.GetRegion d) body)).outcome = .returned [] := by
  cases hclient : env.NewServiceClient "dataarts" (env.GetRegion d) with
  | error err =>
    rw [read_of_client_error env d err hclient] at h
    simp [diagErrorf] at h
  | ok client =>
    cases hget : env.Request client "GET" (rulePath client d.Id) (headerOpts d) with
    | error err =>
      rw [read_of_get_error env d client err hclient hget] at h
      simp only [Outcome.returned.injEq] at h
      exact absurd h (CheckDeletedDiag_ne_nil _ _ _)
    | ok resp =>
      cases hflat : env.FlattenResponse resp with
      | error err =>
        rw [read_of_flatten_error env d client resp err hclient hget hflat] at h
        simp [diagFromErr] at h
      | ok body =>
        rw [read_of_body env d client resp body hclient hget hflat] at h
        exact ⟨client, resp, body, rfl, hget, hflat, h⟩

theorem read_Id_of_returned_nil (env : Env) (d : ResourceData)
    (h : (resourceSecurityRuleRead env d).outcome = .returned []) :
    (resourceSecurityRuleRead env d).d.Id = d.Id := by
  obtain ⟨client, resp, body, hclient, hget, hflat, _⟩ := read_returned_nil env d h
  rw [read_of_body env d client resp body hclient hget hflat]
  exact runSets_Id _ d

theorem assertFloat64_cases (v : Json) :
    (∃ n, v = .num n) ∨ ∃ p, assertFloat64 v = .error p := by
  cases v with
  | num n => exact Or.inl ⟨n, rfl⟩
  | null => exact Or.inr ⟨_, rfl⟩
  | bool b => exact Or.inr ⟨_, rfl⟩
  | str s => exact Or.inr ⟨_, rfl⟩
  | arr xs => exact Or.inr ⟨_, rfl⟩
  | obj kvs => exact Or.inr ⟨_, rfl⟩

theorem timestampArg_of_not_num (v : Json) (h : ∀ n, v ≠ .num n) :
    ∃ p, timestampArg v = .error p := by
  rcases assertFloat64_cases v with ⟨n, hn⟩ | ⟨p, he⟩
  · exact absurd hn (h n)
  · exact ⟨p, by simp only [timestampArg, he, Except.map]⟩

theorem timestampArg_of_num (n : Int) :
    timestampArg (.num n)
      = .ok (.str (FormatTimeStampRFC3339 (goDiv (int64OfFloat64 n) 1000) false)) := rfl

/-- The attributes that the assignments of Read address, in order. -/
theorem readAssignments_attrs (region : String) (body : Json) :
    (readAssignments region body).map (fun kv => schemaAttr kv.1)
      = [some .region, some .rule_type, some .name, some .method, some .content_expression,
          some .column_expression, some .comment_expression, some .builtin_rule_id,
          some .category_id, some .description, some .secrecy_level, some .secrecy_level_num,
          some .enable, some .created_at, some .updated_at, some .created_by,
          some .updated_by] := by
  simp only [readAssignments, List.map_cons, List.map_nil]
  decide

theorem readAssignments_nodup (region : String) (body : Json) :
    ((readAssignments region body).map (fun kv => schemaAttr kv.1)).Nodup := by
  rw [readAssignments_attrs]
  decide

theorem runSets_panic_none (l : List (String × Except String Json))
    (h : ∀ kv ∈ l, ∃ v, kv.2 = .ok v) (d : ResourceData) : (runSets d l).panic = none := by
  induction l generalizing d with
  | nil => rfl
  | cons kv rest ih =>
    obtain ⟨key, val⟩ := kv
    obtain ⟨v, hv⟩ := h (key, val) (List.mem_cons_self _ _)
    simp only at hv
    subst hv
    simp only [runSets]
    exact ih (fun x hx => h x (List.mem_cons_of_mem _ hx)) _

theorem runSets_ok_of_panic_none (l : List (String × Except String Json)) (d : ResourceData)
    (h : (runSets d l).panic = none) : ∀ kv ∈ l, ∃ v, kv.2 = .ok v := by
  induction l generalizing d with
  | nil => intro kv hkv; cases hkv
  | cons x rest ih =>
    obtain ⟨key, val⟩ := x
    cases val with
    | error p => simp [runSets] at h
    | ok v =>
      simp only [runSets] at h
      intro kv hkv
      rcases List.mem_cons.mp hkv with heq | hin
      · exact ⟨v, by rw [heq]⟩
      · exact ih _ h kv hin

/-- When no argument panics and no error is collected, the attribute addressed
by an assignment holds, at the end, the value of that assignment as the schema
decodes it. -/
theorem runSets_stored (l : List (String × Except String Json)) (d : ResourceData)
    (hkeys : (l.map fun kv => schemaAttr kv.1).Nodup)
    (hpanic : (runSets d l).panic = none) (herrs : (runSets d l).errs = [])
    (key : String) (v : Json) (a : Attr) (ha : schemaAttr key = some a)
    (hmem : (key, Except.ok v) ∈ l) :
    decodePrimitive a.type key v = .ok ((runSets d l).d.get a) := by
  obtain ⟨b, w, hb, hw⟩ := runSets_no_error l d herrs key v hmem hpanic
  have hab : b = a := by
    rw [ha] at hb
    exact (Option.some.inj hb).symm
  subst hab
  rw [runSets_get_same b key v w ha hw l hkeys hmem d hpanic, hw]

/-- The three attributes that no assignment of Read addresses are left as they
were, however the assignments end. -/
theorem runSets_read_frame (region : String) (body : Json) (d : ResourceData) :
    (runSets d (readAssignments region body)).d.Id = d.Id ∧
      (runSets d (readAssignments region body)).d.workspace_id = d.workspace_id ∧
      (runSets d (readAssignments region body)).d.secrecy_level_id = d.secrecy_level_id := by
  have hw := runSets_get_other .workspace_id (readAssignments region body) (by
    intro kv hkv h
    have hm : some Attr.workspace_id ∈ (readAssignments region body).map
        (fun kv => schemaAttr kv.1) := List.mem_map.mpr ⟨kv, hkv, h⟩
    rw [readAssignments_attrs] at hm
    exact absurd hm (by decide)) d
  have hs := runSets_get_other .secrecy_level_id (readAssignments region body) (by
    intro kv hkv h
    have hm : some Attr.secrecy_level_id ∈ (readAssignments region body).map
        (fun kv => schemaAttr kv.1) := List.mem_map.mpr ⟨kv, hkv, h⟩
    rw [readAssignments_attrs] at hm
    exact absurd hm (by decide)) d
  refine ⟨runSets_Id _ d, ?_, ?_⟩
  · simpa [ResourceData.get] using hw
  · simpa [ResourceData.get] using hs

/-- When no argument panics, the error of every rejected assignment is among the
collected errors. -/
theorem runSets_collects (l : List (String × Except String Json)) (d : ResourceData)
    (hpanic : (runSets d l).panic = none) (key : String) (v : Json) (a : Attr) (e : GoError)
    (ha : schemaAttr key = some a) (he : decodePrimitive a.type key v = .error e)
    (hmem : (key, Except.ok v) ∈ l) : e ∈ (runSets d l).errs := by
  induction l generalizing d with
  | nil => cases hmem
  | cons kv rest ih =>
    obtain ⟨k, val⟩ := kv
    cases val with
    | error p => simp [runSets] at hpanic
    | ok x =>
      simp only [runSets] at hpanic ⊢
      rcases List.mem_cons.mp hmem with heq | hin
      · obtain ⟨hk, hx⟩ := Prod.mk.inj heq
        have hx2 : v = x := by injection hx
        subst hk; subst hx2
        rw [Set_of_error d key v a e ha he]
        exact List.mem_append_left _ (by simp)
      · exact List.mem_append_right _ (ih _ hpanic hin)

theorem readAssignments_all_ok (region : String) (body : Json) (m n : Int)
    (hc : PathSearch "created_at" body .null = .num m)
    (hu : PathSearch "updated_at" body .null = .num n) :
    ∀ kv ∈ readAssignments region body, ∃ v, kv.2 = .ok v := by
  intro kv hkv
  simp only [readAssignments, hc, hu, timestampArg_of_num, List.mem_cons, List.mem_singleton,
    List.mem_nil_iff, or_false] at hkv
  rcases hkv with h | h | h | h | h | h | h | h | h | h | h | h | h | h | h | h | h <;>
    exact ⟨_, by rw [h]⟩

/-- With numbers under both timestamps, Read attempts all seventeen assignments
and returns the collected errors in one diagnostic. -/
theorem read_collects_when_timestamps_are_numbers (env : Env) (d : ResourceData)
    (client : ServiceClient) (resp : Response) (body : Json) (m n : Int)
    (hclient : env.NewServiceClient "dataarts" (env.GetRegion d) = .ok client)
    (hget : env.Request client "GET" (rulePath client d.Id) (headerOpts d) = .ok resp)
    (hflat : env.FlattenResponse resp = .ok body)
    (hc : PathSearch "created_at" body .null = .num m)
    (hu : PathSearch "updated_at" body .null = .num n) :
    (resourceSecurityRuleRead env d).sets
        = ["region", "rule_type", "name", "method", "content_expression", "column_expression",
            "comment_expression", "builtin_rule_id", "category_id", "description",
            "secrecy_level", "secrecy_level_num", "enable", "created_at", "updated_at",
            "created_by", "updated_by"] ∧
      (resourceSecurityRuleRead env d).outcome
        = .returned (diagFromMultierror
            (runSets d (readAssignments (env.GetRegion d) body)).errs) ∧
      ∀ key v a e, (key, Except.ok v) ∈ readAssignments (env.GetRegion d) body →
        schemaAttr key = some a → decodePrimitive a.type key v = .error e →
        e ∈ (runSets d (readAssignments (env.GetRegion d) body)).errs := by
  have hp := runSets_panic_none _ (readAssignments_all_ok (env.GetRegion d) body m n hc hu) d
  rw [read_of_body env d client resp body hclient hget hflat]
  refine ⟨?_, ?_, ?_⟩
  · simp only [readAssignments, runSets, hc, hu, timestampArg_of_num]
  · simp only [SetRun.outcome, hp]
  · intro key v a e hmem ha he
    exact runSets_collects _ d hp key v a e ha he hmem

/-! ## Facts about the time format -/

theorem yoe_bounds (doe : Int) (h0 : 0 ≤ doe) (h1 : doe ≤ 146096) :
    0 ≤ (doe - doe / 1460 + doe / 36524 - doe / 146096) / 365 ∧
    (doe - doe / 1460 + doe / 36524 - doe / 146096) / 365 ≤ 399 := by
  omega


/-- The day of the year that `civilOfDays` computes lies within the year. -/
theorem doy_bounds_aux (a b c d e f g : Int) (h0 : 0 ≤ a) (h1 : a ≤ 146096)
    (he : e = a / 1460) (hf : f = a / 36524) (hg : g = a / 146096)
    (hb : b = (a - e + f - g) / 365) (hc : c = b / 4) (hd : d = b / 100) :
    0 ≤ a - (365 * b + c - d) ∧ a - (365 * b + c - d) ≤ 365 := by
  have hf5 : f = 0 ∨ f = 1 ∨ f = 2 ∨ f = 3 ∨ f = 4 := by omega
  have hd4 : d = 0 ∨ d = 1 ∨ d = 2 ∨ d = 3 := by omega
  rcases hf5 with h | h | h | h | h <;> rcases hd4 with h' | h' | h' | h' <;> omega



theorem daysOfCivil_core (era b doy mp : Int) (hb0 : 0 ≤ b) (hb1 : b ≤ 399)
    (hmp0 : 0 ≤ mp) (hmp1 : mp ≤ 11) :
    daysOfCivil (b + era * 400 + (if (if mp < 10 then mp + 3 else mp - 9) ≤ 2 then 1 else 0))
        (if mp < 10 then mp + 3 else mp - 9) (doy - (153 * mp + 2) / 5 + 1)
      = era * 146097 + (b * 365 + b / 4 - b / 100 + doy) - 719468 := by
  unfold daysOfCivil
  by_cases h10 : mp < 10
  · have hm : ¬ (mp + 3 ≤ 2) := by omega
    simp only [h10, if_true, hm, if_false]
    have e1 : (b + era * 400 + 0) / 400 = era := by omega
    have e2 : (b + era * 400 + 0) % 400 = b := by omega
    have e3 : mp + 3 - 3 = mp := by omega
    rw [e1, e2, e3]
    omega
  · have hm : mp - 9 ≤ 2 := by omega
    simp only [h10, if_false, hm, if_true]
    have e1 : (b + era * 400 + 1 - 1) / 400 = era := by omega
    have e2 : (b + era * 400 + 1 - 1) % 400 = b := by omega
    have e3 : mp - 9 + 9 = mp := by omega
    rw [e1, e2, e3]
    omega

/-- The date that `civilOfDays` computes is the date of the given day. -/
theorem daysOfCivil_civilOfDays (z r : Int) :
    daysOfCivil (civilOfDays z r).year (civilOfDays z r).month (civilOfDays z r).day = z := by
  have h0 : 0 ≤ (z + 719468) % 146097 := Int.emod_nonneg _ (by decide)
  have h1 : (z + 719468) % 146097 ≤ 146096 := by omega
  obtain ⟨hy0, hy1⟩ := yoe_bounds _ h0 h1
  obtain ⟨hd0, hd1⟩ := doy_bounds_aux ((z + 719468) % 146097) _ _ _ _ _ _ h0 h1 rfl rfl rfl rfl rfl rfl
  simp only [civilOfDays]
  generalize ((z + 719468) % 146097 - (z + 719468) % 146097 / 1460
    + (z + 719468) % 146097 / 36524 - (z + 719468) % 146097 / 146096) / 365 = b at *
  generalize hdoy : (z + 719468) % 146097 - (365 * b + b / 4 - b / 100) = doy at *
  rw [daysOfCivil_core _ b doy _ hy0 hy1 (by omega) (by omega)]
  omega

theorem civilOfDays_ranges (z r : Int) (hr0 : 0 ≤ r) (hr1 : r < 86400) :
    1 ≤ (civilOfDays z r).month ∧ (civilOfDays z r).month ≤ 12 ∧
    1 ≤ (civilOfDays z r).day ∧ (civilOfDays z r).day ≤ 31 ∧
    0 ≤ (civilOfDays z r).hour ∧ (civilOfDays z r).hour ≤ 23 ∧
    0 ≤ (civilOfDays z r).minute ∧ (civilOfDays z r).minute ≤ 59 ∧
    0 ≤ (civilOfDays z r).second ∧ (civilOfDays z r).second ≤ 59 := by
  have h0 : 0 ≤ (z + 719468) % 146097 := Int.emod_nonneg _ (by decide)
  have h1 : (z + 719468) % 146097 ≤ 146096 := by omega
  obtain ⟨hd0, hd1⟩ := doy_bounds_aux ((z + 719468) % 146097) _ _ _ _ _ _ h0 h1 rfl rfl rfl rfl rfl rfl
  simp only [civilOfDays]
  generalize ((z + 719468) % 146097 - (z + 719468) % 146097 / 1460
    + (z + 719468) % 146097 / 36524 - (z + 719468) % 146097 / 146096) / 365 = b at *
  generalize hdoy : (z + 719468) % 146097 - (365 * b + b / 4 - b / 100) = doy at *
  refine ⟨?_, ?_, ?_, ?_, ?_, ?_, ?_, ?_, ?_, ?_⟩
  · split_ifs <;> omega
  · split_ifs <;> omega
  all_goals omega

/-- The date and time that `civilOfUnix` computes denote the given instant. -/
theorem unixOfCivil_civilOfUnix (t : Int) : unixOfCivil (civilOfUnix t) = t := by
  have hd := daysOfCivil_civilOfDays (t / 86400) (t % 86400)
  unfold unixOfCivil civilOfUnix
  rw [hd]
  simp only [civilOfDays]
  omega

theorem twoDigits_of_lt (n : Int) (h0 : 0 ≤ n) (h1 : n ≤ 99) :
    twoDigits n = [digitChar (n.toNat / 10), digitChar (n.toNat % 10)] := by
  have h : n.toNat < 100 := by omega
  have h2 : n.toNat / 10 < 10 := by omega
  simp [twoDigits, padDigits, h2]

/-- The text stored for an instant is a year, then `-MM-DDThh:mm:ssZ`: two
digits for each field, no fraction of a second, and the UTC designator. -/
theorem rfc3339_civilOfUnix_shape (t : Int) :
    (rfc3339 (civilOfUnix t)).data
      = yearDigits (civilOfUnix t).year ++
        [ '-', digitChar ((civilOfUnix t).month.toNat / 10),
          digitChar ((civilOfUnix t).month.toNat % 10),
          '-', digitChar ((civilOfUnix t).day.toNat / 10),
          digitChar ((civilOfUnix t).day.toNat % 10),
          'T', digitChar ((civilOfUnix t).hour.toNat / 10),
          digitChar ((civilOfUnix t).hour.toNat % 10),
          ':', digitChar ((civilOfUnix t).minute.toNat / 10),
          digitChar ((civilOfUnix t).minute.toNat % 10),
          ':', digitChar ((civilOfUnix t).second.toNat / 10),
          digitChar ((civilOfUnix t).second.toNat % 10), 'Z' ] := by
  obtain ⟨hm0, hm1, hd0, hd1, hh0, hh1, hi0, hi1, hs0, hs1⟩ :=
    civilOfDays_ranges (t / 86400) (t % 86400) (Int.emod_nonneg _ (by decide))
      (Int.emod_lt_of_pos _ (by decide))
  unfold civilOfUnix
  simp only [rfc3339]
  rw [twoDigits_of_lt _ (by omega) (by omega), twoDigits_of_lt _ (by omega) (by omega),
    twoDigits_of_lt _ hh0 (by omega), twoDigits_of_lt _ hi0 (by omega),
    twoDigits_of_lt _ hs0 (by omega)]
  simp

/-! ## The claims -/

/-- C2: an error that is or wraps an HTTP 400 error whose body decodes to a JSON
object with `error_code` equal to "DLS.4106" is returned by
`parseSecurityRuleError` as a 404 error with the same response data; a Read whose
GET fails with such an error reports only the not-found warning, with no error
diagnostic, and drops the resource from the state. -/
theorem parseSecurityRuleError_remaps_missing_rule (env : Env) (d : ResourceData)
    (client : ServiceClient) (err : GoError) (e : ErrUnexpectedResponseCode)
    (kvs : List (String × Json))
    (h400 : errorsAs400 err = some e)
    (hbody : env.Unmarshal e.Body = .ok (.obj kvs))
    (hcode : mapIndex "error_code" kvs = .str "DLS.4106")
    (hclient : env.NewServiceClient "dataarts" (env.GetRegion d) = .ok client)
    (hget : env.Request client "GET" (rulePath client d.Id) (headerOpts d) = .error err) :
    parseSecurityRuleError env.Unmarshal err = .ErrDefault404 e ∧
      (resourceSecurityRuleRead env d).outcome = .returned notFoundWarning ∧
      hasError notFoundWarning = false ∧
      (resourceSecurityRuleRead env d).d = d.SetId "" := by
  have hparse : parseSecurityRuleError env.Unmarshal err = .ErrDefault404 e := by
    simp [parseSecurityRuleError, h400, hbody, jmespathSearch, hcode, ifaceEqString]
  have hread := read_of_get_error env d client err hclient hget
  rw [hparse, CheckDeletedDiag_of_404] at hread
  rw [hread]
  exact ⟨hparse, rfl, rfl, rfl⟩

/-- C2 at the body of the source comment, wrapped once. -/
theorem parseSecurityRuleError_remaps_missing_rule_witness :
    parseSecurityRuleError sampleDecode (.wrapped "request failed" (badRequest notFoundText))
        = .ErrDefault404 ⟨"https://dataarts.example.com/v1/proj-1/security/data-classification/rule/rule-1",
            "GET", [200], 400, notFoundText⟩ ∧
      (resourceSecurityRuleRead
          (sampleEnv (.error timeoutError)
            (.error (.wrapped "request failed" (badRequest notFoundText)))
            (.error timeoutError) (.error timeoutError)) sampleStored).outcome
        = .returned notFoundWarning ∧
      hasError notFoundWarning = false ∧
      (resourceSecurityRuleRead
          (sampleEnv (.error timeoutError)
            (.error (.wrapped "request failed" (badRequest notFoundText)))
            (.error timeoutError) (.error timeoutError)) sampleStored).d
        = sampleStored.SetId "" :=
  parseSecurityRuleError_remaps_missing_rule
    (sampleEnv (.error timeoutError) (.error (.wrapped "request failed" (badRequest notFoundText)))
      (.error timeoutError) (.error timeoutError))
    sampleStored sampleClient (.wrapped "request failed" (badRequest notFoundText))
    ⟨"https://dataarts.example.com/v1/proj-1/security/data-classification/rule/rule-1",
      "GET", [200], 400, notFoundText⟩
    [("error_code", .str "DLS.4106"), ("error_msg", .str "Rule is not exist.")]
    rfl rfl rfl rfl rfl

/-- C3: `parseSecurityRuleError` returns its input unchanged when the error
neither is nor wraps an HTTP 400 error, and when it does but the body is not
valid JSON, has no `error_code`, or has an `error_code` other than
"DLS.4106". -/
theorem parseSecurityRuleError_keeps_other_errors (unmarshal : String → Except GoError Json)
    (err : GoError)
    (h : errorsAs400 err = none ∨
      ∃ e, errorsAs400 err = some e ∧
        ((∃ x, unmarshal e.Body = .error x) ∨
          ∃ v, unmarshal e.Body = .ok v ∧
            (jmespathSearch "error_code" v = .ok .null ∨
              ∃ c, jmespathSearch "error_code" v = .ok c ∧ c ≠ .str "DLS.4106"))) :
    parseSecurityRuleError unmarshal err = err := by
  rcases h with h | ⟨e, h400, h⟩
  · simp only [parseSecurityRuleError, h]
  · rcases h with ⟨x, hx⟩ | ⟨v, hv, h⟩
    · simp only [parseSecurityRuleError, h400, hx]
    · rcases h with hc | ⟨c, hc, hne⟩
      · simp [parseSecurityRuleError, h400, hv, hc, ifaceEqString]
      · simp [parseSecurityRuleError, h400, hv, hc, ifaceEqString_false c _ hne]

/-- C3 at an HTTP 400 error with another error code. -/
theorem parseSecurityRuleError_keeps_other_errors_witness :
    parseSecurityRuleError sampleDecode (badRequest otherCodeText) = badRequest otherCodeText :=
  parseSecurityRuleError_keeps_other_errors sampleDecode (badRequest otherCodeText)
    (Or.inr ⟨_, rfl, Or.inr ⟨.obj [("error_code", .str "DLS.1000"),
      ("error_msg", .str "Internal error.")], rfl, Or.inr ⟨.str "DLS.1000", rfl, by simp⟩⟩⟩)

/-- C1: the body that Create and Update send, `RemoveNil` applied to
`buildCreateOrUpdateSecurityRuleBodyParams`, always holds `rule_type`,
`secrecy_level_id` and `name`; it holds each of the seven optional keys exactly
when the configured string is not empty, and then with that string
(`commit_expression` from the local `comment_expression`); no key occurs twice
and no optional key carries the empty string.  The POST of Create and the PUT of
Update carry this body, and are the first request once the client exists. -/
theorem create_update_body_omits_empty_optionals (env : Env) (d : ResourceData) :
    (("rule_type", Json.str d.rule_type) ∈ RemoveNil (buildCreateOrUpdateSecurityRuleBodyParams d) ∧
      ("secrecy_level_id", Json.str d.secrecy_level_id)
        ∈ RemoveNil (buildCreateOrUpdateSecurityRuleBodyParams d) ∧
      ("name", Json.str d.name) ∈ RemoveNil (buildCreateOrUpdateSecurityRuleBodyParams d)) ∧
    (SentIffNonEmpty (RemoveNil (buildCreateOrUpdateSecurityRuleBodyParams d)) "method" d.method ∧
      SentIffNonEmpty (RemoveNil (buildCreateOrUpdateSecurityRuleBodyParams d))
        "content_expression" d.content_expression ∧
      SentIffNonEmpty (RemoveNil (buildCreateOrUpdateSecurityRuleBodyParams d))
        "column_expression" d.column_expression ∧
      SentIffNonEmpty (RemoveNil (buildCreateOrUpdateSecurityRuleBodyParams d))
        "commit_expression" d.comment_expression ∧
      SentIffNonEmpty (RemoveNil (buildCreateOrUpdateSecurityRuleBodyParams d))
        "builtin_rule_id" d.builtin_rule_id ∧
      SentIffNonEmpty (RemoveNil (buildCreateOrUpdateSecurityRuleBodyParams d))
        "description" d.description ∧
      SentIffNonEmpty (RemoveNil (buildCreateOrUpdateSecurityRuleBodyParams d))
        "category_id" d.category_id) ∧
    ((RemoveNil (buildCreateOrUpdateSecurityRuleBodyParams d)).map Prod.fst).Nodup ∧
    (∀ k v, (k, v) ∈ RemoveNil (buildCreateOrUpdateSecurityRuleBodyParams d) → v = Json.str "" →
      k = "rule_type" ∨ k = "secrecy_level_id" ∨ k = "name") ∧
    (∀ c ∈ (resourceSecurityRuleCreate env d).calls, c.method = "POST" →
      c.opts.JSONBody = some (RemoveNil (buildCreateOrUpdateSecurityRuleBodyParams d))) ∧
    (∀ c ∈ (resourceSecurityRuleUpdate env d).calls, c.method = "PUT" →
      c.opts.JSONBody = some (RemoveNil (buildCreateOrUpdateSecurityRuleBodyParams d))) ∧
    (∀ client, env.NewServiceClient "dataarts" (env.GetRegion d) = .ok client →
      (∃ rest, (resourceSecurityRuleCreate env d).calls
        = ⟨"POST", createPath client, bodyOpts d⟩ :: rest) ∧
      ∃ rest, (resourceSecurityRuleUpdate env d).calls
        = ⟨"PUT", rulePath client d.Id, bodyOpts d⟩ :: rest) := by
  refine ⟨⟨?_, ?_, ?_⟩, ⟨?_, ?_, ?_, ?_, ?_, ?_, ?_⟩, body_keys_nodup d, ?_, ?_, ?_, ?_⟩
  · rw [mem_RemoveNil]; simp [buildCreateOrUpdateSecurityRuleBodyParams]
  · rw [mem_RemoveNil]; simp [buildCreateOrUpdateSecurityRuleBodyParams]
  · rw [mem_RemoveNil]; simp [buildCreateOrUpdateSecurityRuleBodyParams]
  · exact sentIffNonEmpty_of_entry _ _ _ (by intro v; simp [buildCreateOrUpdateSecurityRuleBodyParams])
  · exact sentIffNonEmpty_of_entry _ _ _ (by intro v; simp [buildCreateOrUpdateSecurityRuleBodyParams])
  · exact sentIffNonEmpty_of_entry _ _ _ (by intro v; simp [buildCreateOrUpdateSecurityRuleBodyParams])
  · exact sentIffNonEmpty_of_entry _ _ _ (by intro v; simp [buildCreateOrUpdateSecurityRuleBodyParams])
  · exact sentIffNonEmpty_of_entry _ _ _ (by intro v; simp [buildCreateOrUpdateSecurityRuleBodyParams])
  · exact sentIffNonEmpty_of_entry _ _ _ (by intro v; simp [buildCreateOrUpdateSecurityRuleBodyParams])
  · exact sentIffNonEmpty_of_entry _ _ _ (by intro v; simp [buildCreateOrUpdateSecurityRuleBodyParams])
  · intro k v hmem hv
    subst hv
    rw [mem_RemoveNil] at hmem
    simp only [buildCreateOrUpdateSecurityRuleBodyParams, List.mem_cons, Prod.mk.injEq,
      List.mem_singleton, List.mem_nil_iff, or_false] at hmem
    rcases hmem.1 with h | h | h | h | h | h | h | h | h | h
    · exact Or.inl h.1
    · exact Or.inr (Or.inl h.1)
    · exact Or.inr (Or.inr h.1)
    all_goals
      exfalso
      have hv := h.2
      unfold ValueIngoreEmpty at hv
      split_ifs at hv with he
      simp only [Json.str.injEq] at hv
      exact he hv.symm
  · intro c hc hm
    rcases create_calls env d c hc with ⟨_, ho⟩ | ⟨hg, _⟩
    · rw [ho]; rfl
    · rw [hg] at hm; exact absurd hm (by decide)
  · intro c hc hm
    rcases update_calls env d c hc with ⟨_, ho⟩ | ⟨hg, _⟩
    · rw [ho]; rfl
    · rw [hg] at hm; exact absurd hm (by decide)
  · intro client hclient
    exact ⟨create_first_call env d client hclient, update_first_call env d client hclient⟩

/-- C1 at the sample configuration: the four empty optional fields are left out,
the three others are sent. -/
theorem create_update_body_omits_empty_optionals_witness :
    RemoveNil (buildCreateOrUpdateSecurityRuleBodyParams sampleData)
        = [("rule_type", .str "CUSTOM"), ("secrecy_level_id", .str "lvl-1"), ("name", .str "rule-a"),
            ("method", .str "REGULAR"), ("content_expression", .str "^a+$"),
            ("commit_expression", .str "remark")] ∧
      SentIffNonEmpty (RemoveNil (buildCreateOrUpdateSecurityRuleBodyParams sampleData))
        "description" sampleData.description :=
  ⟨rfl, (create_update_body_omits_empty_optionals
    (sampleEnv (.error timeoutError) (.error timeoutError) (.error timeoutError)
      (.error timeoutError)) sampleData).2.1.2.2.2.2.2.1⟩

/-- C4: when the POST of Create succeeds and the decoded response has no `uuid`
key, a null `uuid`, or the extraction fails, Create returns the error
"ID is not found in API response", leaves the resource data (and so the id) as
it was, and issues no request besides the POST: Read is not invoked. -/
theorem create_without_uuid_fails (env : Env) (d : ResourceData) (client : ServiceClient)
    (resp : Response) (body : Json)
    (hclient : env.NewServiceClient "dataarts" (env.GetRegion d) = .ok client)
    (hpost : env.Request client "POST" (createPath client) (bodyOpts d) = .ok resp)
    (hflat : env.FlattenResponse resp = .ok body)
    (huuid : (∃ kvs, body = .obj kvs ∧ ∀ kv ∈ kvs, kv.1 ≠ "uuid") ∨
      jmespathSearch "uuid" body = .ok .null ∨ ∃ e, jmespathSearch "uuid" body = .error e) :
    (resourceSecurityRuleCreate env d).outcome = .returned idNotFound ∧
      hasError idNotFound = true ∧
      (resourceSecurityRuleCreate env d).d = d ∧
      (resourceSecurityRuleCreate env d).calls = [⟨"POST", createPath client, bodyOpts d⟩] ∧
      (∀ c ∈ (resourceSecurityRuleCreate env d).calls, c.method ≠ "GET") ∧
      (resourceSecurityRuleCreate env d).sets = [] := by
  have h : jmespathSearch "uuid" body = .ok .null ∨ ∃ e, jmespathSearch "uuid" body = .error e := by
    rcases huuid with ⟨kvs, hb, hk⟩ | h | h
    · left
      subst hb
      simp only [jmespathSearch, mapIndex_of_no_key "uuid" kvs hk]
    · exact Or.inl h
    · exact Or.inr h
  rw [create_of_no_uuid env d client resp body hclient hpost hflat h]
  refine ⟨rfl, rfl, rfl, rfl, ?_, rfl⟩
  intro c hc
  rw [List.mem_singleton.mp hc]
  show "POST" ≠ "GET"
  decide

/-- C4 at a create response without `uuid`; the server would answer a GET. -/
theorem create_without_uuid_fails_witness :
    (resourceSecurityRuleCreate
        (sampleEnv (.ok ⟨200, noUuidText⟩) (.ok ⟨200, ruleText⟩) (.error timeoutError)
          (.error timeoutError)) sampleData).outcome = .returned idNotFound ∧
      hasError idNotFound = true ∧
      (resourceSecurityRuleCreate
        (sampleEnv (.ok ⟨200, noUuidText⟩) (.ok ⟨200, ruleText⟩) (.error timeoutError)
          (.error timeoutError)) sampleData).d = sampleData ∧
      (resourceSecurityRuleCreate
        (sampleEnv (.ok ⟨200, noUuidText⟩) (.ok ⟨200, ruleText⟩) (.error timeoutError)
          (.error timeoutError)) sampleData).calls
        = [⟨"POST", createPath sampleClient, bodyOpts sampleData⟩] ∧
      (∀ c ∈ (resourceSecurityRuleCreate
        (sampleEnv (.ok ⟨200, noUuidText⟩) (.ok ⟨200, ruleText⟩) (.error timeoutError)
          (.error timeoutError)) sampleData).calls, c.method ≠ "GET") ∧
      (resourceSecurityRuleCreate
        (sampleEnv (.ok ⟨200, noUuidText⟩) (.ok ⟨200, ruleText⟩) (.error timeoutError)
          (.error timeoutError)) sampleData).sets = [] :=
  create_without_uuid_fails
    (sampleEnv (.ok ⟨200, noUuidText⟩) (.ok ⟨200, ruleText⟩) (.error timeoutError)
      (.error timeoutError))
    sampleData sampleClient ⟨200, noUuidText⟩ (.obj [("name", .str "rule-a")]) rfl rfl rfl
    (Or.inl ⟨[("name", .str "rule-a")], rfl, by
      intro kv hkv
      rw [List.mem_singleton.mp hkv]
      decide⟩)

/-- C8: every request that Create, Read, Update and Delete issue carries the
header `workspace` set to the configured `workspace_id`, as its only extra
header; Read and Delete send no body; the body of Create and Update has no
`workspace_id` key and does not depend on the configured `workspace_id`. -/
theorem workspace_is_header_never_body (env : Env) (d : ResourceData) :
    (∀ c ∈ (resourceSecurityRuleCreate env d).calls,
      c.opts.MoreHeaders = [("workspace", d.workspace_id)]) ∧
    (∀ c ∈ (resourceSecurityRuleRead env d).calls,
      c.opts.MoreHeaders = [("workspace", d.workspace_id)] ∧ c.opts.JSONBody = none) ∧
    (∀ c ∈ (resourceSecurityRuleUpdate env d).calls,
      c.opts.MoreHeaders = [("workspace", d.workspace_id)]) ∧
    (∀ c ∈ (resourceSecurityRuleDelete env d).calls,
      c.opts.MoreHeaders = [("workspace", d.workspace_id)] ∧ c.opts.JSONBody = none) ∧
    (∀ c ∈ (resourceSecurityRuleCreate env d).calls ++ (resourceSecurityRuleUpdate env d).calls,
      ∀ body, c.opts.JSONBody = some body →
        body = RemoveNil (buildCreateOrUpdateSecurityRuleBodyParams d) ∧
        (∀ kv ∈ body, kv.1 ≠ "workspace_id") ∧ mapIndex "workspace_id" body = .null) ∧
    (∀ w, buildCreateOrUpdateSecurityRuleBodyParams { d with workspace_id := w }
      = buildCreateOrUpdateSecurityRuleBodyParams d) := by
  refine ⟨?_, ?_, ?_, ?_, ?_, fun _ => rfl⟩
  · intro c hc
    rcases create_calls env d c hc with ⟨_, ho⟩ | ⟨_, ho⟩ <;> rw [ho] <;> rfl
  · intro c hc
    rw [(read_calls env d c hc).2]
    exact ⟨rfl, rfl⟩
  · intro c hc
    rcases update_calls env d c hc with ⟨_, ho⟩ | ⟨_, ho⟩ <;> rw [ho] <;> rfl
  · intro c hc
    rw [(delete_calls env d c hc).2]
    exact ⟨rfl, rfl⟩
  · intro c hc body hbody
    have hopts : c.opts = bodyOpts d ∨ c.opts = headerOpts d := by
      rcases List.mem_append.mp hc with h | h
      · rcases create_calls env d c h with ⟨_, ho⟩ | ⟨_, ho⟩
        · exact Or.inl ho
        · exact Or.inr ho
      · rcases update_calls env d c h with ⟨_, ho⟩ | ⟨_, ho⟩
        · exact Or.inl ho
        · exact Or.inr ho
    rcases hopts with ho | ho
    · rw [ho] at hbody
      have hb : RemoveNil (buildCreateOrUpdateSecurityRuleBodyParams d) = body := by
        simpa [bodyOpts] using hbody
      subst hb
      exact ⟨rfl, body_has_no_workspace_id d,
        mapIndex_of_no_key _ _ (body_has_no_workspace_id d)⟩
    · rw [ho] at hbody
      simp [headerOpts] at hbody

/-- C9: whatever error the DELETE request returns, an HTTP 400 with
`error_code` "DLS.4106" included, Delete returns the one error diagnostic
"error deleting ..." that carries this error, and leaves the resource data as
it was; Delete returns no diagnostics exactly when the client was created and
the DELETE request succeeded. -/
theorem delete_surfaces_every_error (env : Env) (d : ResourceData) :
    (∀ client err, env.NewServiceClient "dataarts" (env.GetRegion d) = .ok client →
      env.Request client "DELETE" (rulePath client d.Id) (headerOpts d) = .error err →
      (resourceSecurityRuleDelete env d).outcome
          = .returned (diagErrorf "error deleting DataArts Security data recognition rule: %s"
              [.err err]) ∧
        hasError (diagErrorf "error deleting DataArts Security data recognition rule: %s"
          [.err err]) = true ∧
        (resourceSecurityRuleDelete env d).d = d) ∧
    ((resourceSecurityRuleDelete env d).outcome = .returned [] ↔
      ∃ client resp, env.NewServiceClient "dataarts" (env.GetRegion d) = .ok client ∧
        env.Request client "DELETE" (rulePath client d.Id) (headerOpts d) = .ok resp) := by
  constructor
  · intro client err hclient hdel
    rw [delete_of_request_error env d client err hclient hdel]
    exact ⟨rfl, rfl, rfl⟩
  · cases hclient : env.NewServiceClient "dataarts" (env.GetRegion d) with
    | error e =>
      rw [delete_of_client_error env d e hclient]
      simp [diagErrorf]
    | ok client =>
      cases hdel : env.Request client "DELETE" (rulePath client d.Id) (headerOpts d) with
      | error err =>
        rw [delete_of_request_error env d client err hclient hdel]
        simp [diagErrorf, hdel]
      | ok resp =>
        rw [delete_of_request_ok env d client resp hclient hdel]
        simp [hdel]

/-- C9 at a DELETE answered by the HTTP 400 "DLS.4106" error that Read would
remap. -/
theorem delete_surfaces_every_error_witness :
    (resourceSecurityRuleDelete
        (sampleEnv (.error timeoutError) (.error timeoutError) (.error timeoutError)
          (.error (badRequest notFoundText))) sampleStored).outcome
        = .returned (diagErrorf "error deleting DataArts Security data recognition rule: %s"
            [.err (badRequest notFoundText)]) ∧
      hasError (diagErrorf "error deleting DataArts Security data recognition rule: %s"
        [.err (badRequest notFoundText)]) = true ∧
      (resourceSecurityRuleDelete
        (sampleEnv (.error timeoutError) (.error timeoutError) (.error timeoutError)
          (.error (badRequest notFoundText))) sampleStored).d = sampleStored :=
  (delete_surfaces_every_error
    (sampleEnv (.error timeoutError) (.error timeoutError) (.error timeoutError)
      (.error (badRequest notFoundText))) sampleStored).1
    sampleClient (badRequest notFoundText) rfl rfl

set_option maxRecDepth 100000 in
/-- C7 fails as stated: a Create whose POST response carries the empty string
as `uuid` returns no diagnostics and leaves the id empty; and a Create whose
trailing Read is remapped to not-found completes with a warning only, no error,
and an empty id, although the POST response carried the id "rule-1". -/
theorem create_can_end_with_empty_id :
    ((resourceSecurityRuleCreate
        (sampleEnv (.ok ⟨200, emptyUuidText⟩) (.ok ⟨200, ruleText⟩) (.error timeoutError)
          (.error timeoutError)) sampleData).outcome = .returned [] ∧
      (resourceSecurityRuleCreate
        (sampleEnv (.ok ⟨200, emptyUuidText⟩) (.ok ⟨200, ruleText⟩) (.error timeoutError)
          (.error timeoutError)) sampleData).d.Id = "") ∧
    ((resourceSecurityRuleCreate
        (sampleEnv (.ok ⟨200, createdText⟩) (.error (badRequest notFoundText)) (.error timeoutError)
          (.error timeoutError)) sampleData).outcome = .returned notFoundWarning ∧
      hasError notFoundWarning = false ∧
      jmespathSearch "uuid" (.obj [("uuid", .str "rule-1")]) = .ok (.str "rule-1") ∧
      (resourceSecurityRuleCreate
        (sampleEnv (.ok ⟨200, createdText⟩) (.error (badRequest notFoundText)) (.error timeoutError)
          (.error timeoutError)) sampleData).d.Id = "") :=
  ⟨⟨rfl, rfl⟩, rfl, rfl, rfl, rfl⟩

/-- C7 as amended: after every Create that returns no diagnostics, the POST
succeeded, its response carries a string `uuid`, and the resource id is equal to
that string; the id is non-empty exactly when that `uuid` is non-empty. -/
theorem create_id_is_response_uuid (env : Env) (d : ResourceData)
    (h : (resourceSecurityRuleCreate env d).outcome = .returned []) :
    ∃ client resp body id,
      env.NewServiceClient "dataarts" (env.GetRegion d) = .ok client ∧
      env.Request client "POST" (createPath client) (bodyOpts d) = .ok resp ∧
      env.FlattenResponse resp = .ok body ∧
      jmespathSearch "uuid" body = .ok (.str id) ∧
      (resourceSecurityRuleCreate env d).d.Id = id ∧
      ((resourceSecurityRuleCreate env d).d.Id ≠ "" ↔ id ≠ "") := by
  cases hclient : env.NewServiceClient "dataarts" (env.GetRegion d) with
  | error err =>
    rw [create_of_client_error env d err hclient] at h
    simp [diagErrorf] at h
  | ok client =>
    cases hpost : env.Request client "POST" (createPath client) (bodyOpts d) with
    | error err =>
      rw [create_of_post_error env d client err hclient hpost] at h
      simp [diagErrorf] at h
    | ok resp =>
      cases hflat : env.FlattenResponse resp with
      | error err =>
        rw [create_of_flatten_error env d client resp err hclient hpost hflat] at h
        simp [diagFromErr] at h
      | ok body =>
        cases huuid : jmespathSearch "uuid" body with
        | error e =>
          rw [create_of_no_uuid env d client resp body hclient hpost hflat (Or.inr ⟨e, huuid⟩)] at h
          simp [idNotFound, diagErrorf] at h
        | ok id =>
          by_cases hnull : id = .null
          · subst hnull
            rw [create_of_no_uuid env d client resp body hclient hpost hflat (Or.inl huuid)] at h
            simp [idNotFound, diagErrorf] at h
          · rcases assertString_cases id with ⟨s, hs⟩ | ⟨p, hp⟩
            · subst hs
              rw [create_of_uuid_string env d client resp body s hclient hpost hflat huuid] at h ⊢
              have hid : (resourceSecurityRuleRead env (d.SetId s)).d.Id = s :=
                read_Id_of_returned_nil env (d.SetId s) h
              exact ⟨client, resp, body, s, rfl, hpost, hflat, huuid, hid, by rw [hid]⟩
            · rw [create_of_uuid_other env d client resp body id p hclient hpost hflat huuid hnull hp]
                at h
              cases h

set_option maxRecDepth 100000 in
/-- C7 as amended, at a Create answered with the id "rule-1" and then the rule. -/
theorem create_id_is_response_uuid_witness :
    ∃ client resp body id,
      (sampleEnv (.ok ⟨200, createdText⟩) (.ok ⟨200, ruleText⟩) (.error timeoutError)
        (.error timeoutError)).NewServiceClient "dataarts" "cn-north-4" = .ok client ∧
      (sampleEnv (.ok ⟨200, createdText⟩) (.ok ⟨200, ruleText⟩) (.error timeoutError)
        (.error timeoutError)).Request client "POST" (createPath client) (bodyOpts sampleData)
        = .ok resp ∧
      sampleDecode resp.Body = .ok body ∧
      jmespathSearch "uuid" body = .ok (.str id) ∧
      (resourceSecurityRuleCreate
        (sampleEnv (.ok ⟨200, createdText⟩) (.ok ⟨200, ruleText⟩) (.error timeoutError)
          (.error timeoutError)) sampleData).d.Id = id ∧
      ((resourceSecurityRuleCreate
        (sampleEnv (.ok ⟨200, createdText⟩) (.ok ⟨200, ruleText⟩) (.error timeoutError)
          (.error timeoutError)) sampleData).d.Id ≠ "" ↔ id ≠ "") :=
  create_id_is_response_uuid
    (sampleEnv (.ok ⟨200, createdText⟩) (.ok ⟨200, ruleText⟩) (.error timeoutError)
      (.error timeoutError)) sampleData rfl

/-- C5 fails on the code: when the decoded GET response has no number under
`created_at` or under `updated_at` (the key is absent, null, or not a number),
Read panics at the type assertion of source lines 225-226 while the arguments of
`multierror.Append` are evaluated: it returns no combined error, and the
assignments of `created_by` and `updated_by` are never attempted. -/
theorem read_panics_on_absent_timestamp (env : Env) (d : ResourceData) (client : ServiceClient)
    (resp : Response) (body : Json)
    (hclient : env.NewServiceClient "dataarts" (env.GetRegion d) = .ok client)
    (hget : env.Request client "GET" (rulePath client d.Id) (headerOpts d) = .ok resp)
    (hflat : env.FlattenResponse resp = .ok body)
    (hts : (∀ n, PathSearch "created_at" body .null ≠ .num n) ∨
      ∀ n, PathSearch "updated_at" body .null ≠ .num n) :
    (∃ p, (resourceSecurityRuleRead env d).outcome = .panicked p) ∧
      "created_by" ∉ (resourceSecurityRuleRead env d).sets ∧
      "updated_by" ∉ (resourceSecurityRuleRead env d).sets := by
  rw [read_of_body env d client resp body hclient hget hflat]
  simp only
  rcases assertFloat64_cases (PathSearch "created_at" body .null) with ⟨n, hn⟩ | ⟨p, hc⟩
  · have hu : ∀ n, PathSearch "updated_at" body .null ≠ .num n := by
      rcases hts with h | h
      · exact absurd hn (h n)
      · exact h
    obtain ⟨q, hq⟩ := timestampArg_of_not_num _ hu
    simp only [readAssignments, runSets, SetRun.outcome, hn, timestampArg_of_num, hq]
    exact ⟨⟨q, rfl⟩, by decide, by decide⟩
  · have hc2 : timestampArg (PathSearch "created_at" body .null) = .error p := by
      simp only [timestampArg, hc, Except.map]
    simp only [readAssignments, runSets, SetRun.outcome, hc2]
    exact ⟨⟨p, rfl⟩, by decide, by decide⟩

set_option maxRecDepth 100000 in
/-- C5 at a GET response without `created_at`: Read panics on the nil value, and
`created_by`, which the response carries, is never assigned. -/
theorem read_panics_on_absent_timestamp_witness :
    ((∃ p, (resourceSecurityRuleRead
        (sampleEnv (.error timeoutError) (.ok ⟨200, ruleNoCreatedAtText⟩) (.error timeoutError)
          (.error timeoutError)) sampleStored).outcome = .panicked p) ∧
      "created_by" ∉ (resourceSecurityRuleRead
        (sampleEnv (.error timeoutError) (.ok ⟨200, ruleNoCreatedAtText⟩) (.error timeoutError)
          (.error timeoutError)) sampleStored).sets ∧
      "updated_by" ∉ (resourceSecurityRuleRead
        (sampleEnv (.error timeoutError) (.ok ⟨200, ruleNoCreatedAtText⟩) (.error timeoutError)
          (.error timeoutError)) sampleStored).sets) ∧
    (resourceSecurityRuleRead
        (sampleEnv (.error timeoutError) (.ok ⟨200, ruleNoCreatedAtText⟩) (.error timeoutError)
          (.error timeoutError)) sampleStored).outcome
      = .panicked "interface conversion: interface {} is nil, not float64" ∧
    PathSearch "created_by" sampleRuleNoCreatedAt .null = .str "alice" ∧
    (resourceSecurityRuleRead
        (sampleEnv (.error timeoutError) (.ok ⟨200, ruleNoCreatedAtText⟩) (.error timeoutError)
          (.error timeoutError)) sampleStored).d.created_by = "" :=
  ⟨read_panics_on_absent_timestamp
    (sampleEnv (.error timeoutError) (.ok ⟨200, ruleNoCreatedAtText⟩) (.error timeoutError)
      (.error timeoutError))
    sampleStored sampleClient ⟨200, ruleNoCreatedAtText⟩ sampleRuleNoCreatedAt rfl rfl rfl
    (Or.inl fun n h => by
      have h2 : PathSearch "created_at" sampleRuleNoCreatedAt .null = .null := rfl
      rw [h2] at h
      cases h), rfl, rfl, rfl⟩

/-- C6: when the decoded GET response carries the numbers `m` under `created_at`
and `n` under `updated_at`, both in the `int64` range, Read stores in
`created_at` the RFC 3339 text, in UTC and without fractional seconds, of the
instant `m / 1000` seconds (Go integer division) after the Unix epoch, and in
`updated_at` that of `n / 1000`; the date and time written denote that
instant. -/
theorem read_stores_rfc3339_timestamps (env : Env) (d : ResourceData) (client : ServiceClient)
    (resp : Response) (body : Json) (m n : Int)
    (hclient : env.NewServiceClient "dataarts" (env.GetRegion d) = .ok client)
    (hget : env.Request client "GET" (rulePath client d.Id) (headerOpts d) = .ok resp)
    (hflat : env.FlattenResponse resp = .ok body)
    (hc : PathSearch "created_at" body .null = .num m)
    (hu : PathSearch "updated_at" body .null = .num n)
    (_hm : -2 ^ 63 ≤ m ∧ m < 2 ^ 63) (_hn : -2 ^ 63 ≤ n ∧ n < 2 ^ 63) :
    (resourceSecurityRuleRead env d).d.created_at = rfc3339 (civilOfUnix (Int.tdiv m 1000)) ∧
      (resourceSecurityRuleRead env d).d.updated_at = rfc3339 (civilOfUnix (Int.tdiv n 1000)) ∧
      unixOfCivil (civilOfUnix (Int.tdiv m 1000)) = Int.tdiv m 1000 ∧
      unixOfCivil (civilOfUnix (Int.tdiv n 1000)) = Int.tdiv n 1000 := by
  have hp := runSets_panic_none _ (readAssignments_all_ok (env.GetRegion d) body m n hc hu) d
  have hkeys := readAssignments_nodup (env.GetRegion d) body
  rw [read_of_body env d client resp body hclient hget hflat]
  refine ⟨?_, ?_, unixOfCivil_civilOfUnix _, unixOfCivil_civilOfUnix _⟩
  · have h := runSets_get_same .created_at "created_at"
      (.str (rfc3339 (civilOfUnix (Int.tdiv m 1000)))) (.str (rfc3339 (civilOfUnix (Int.tdiv m 1000))))
      rfl rfl (readAssignments (env.GetRegion d) body) hkeys
      (by
        simp only [readAssignments, hc, timestampArg_of_num]
        simp [FormatTimeStampRFC3339, goDiv, int64OfFloat64]) d hp
    simpa [ResourceData.get] using h
  · have h := runSets_get_same .updated_at "updated_at"
      (.str (rfc3339 (civilOfUnix (Int.tdiv n 1000)))) (.str (rfc3339 (civilOfUnix (Int.tdiv n 1000))))
      rfl rfl (readAssignments (env.GetRegion d) body) hkeys
      (by
        simp only [readAssignments, hu, timestampArg_of_num]
        simp [FormatTimeStampRFC3339, goDiv, int64OfFloat64]) d hp
    simpa [ResourceData.get] using h

set_option maxRecDepth 100000 in
/-- C6 at the value of the spec: 1700000000000 is stored as
"2023-11-14T22:13:20Z"; 1700000000999 falls in the same second. -/
theorem read_stores_rfc3339_timestamps_witness :
    (resourceSecurityRuleRead
        (sampleEnv (.error timeoutError) (.ok ⟨200, ruleText⟩) (.error timeoutError)
          (.error timeoutError)) sampleStored).d.created_at = "2023-11-14T22:13:20Z" ∧
      (resourceSecurityRuleRead
        (sampleEnv (.error timeoutError) (.ok ⟨200, ruleText⟩) (.error timeoutError)
          (.error timeoutError)) sampleStored).d.updated_at = "2023-11-14T22:13:20Z" ∧
      unixOfCivil ⟨2023, 11, 14, 22, 13, 20⟩ = Int.tdiv 1700000000000 1000 ∧
      unixOfCivil ⟨2023, 11, 14, 22, 13, 20⟩ = Int.tdiv 1700000000999 1000 :=
  read_stores_rfc3339_timestamps
    (sampleEnv (.error timeoutError) (.ok ⟨200, ruleText⟩) (.error timeoutError)
      (.error timeoutError))
    sampleStored sampleClient ⟨200, ruleText⟩ sampleRule 1700000000000 1700000000999
    rfl rfl rfl rfl rfl (by decide) (by decide)

set_option maxRecDepth 100000 in
/-- C10 fails as stated: `region` is not overwritten from the response.  The GET
response carries the region "cn-south-1"; Read returns no diagnostics and the
stored region is the region of the client, "cn-north-4". -/
theorem read_region_is_not_from_response :
    sampleDecode ruleText = .ok sampleRule ∧
      PathSearch "region" sampleRule .null = .str "cn-south-1" ∧
      (resourceSecurityRuleRead
        (sampleEnv (.error timeoutError) (.ok ⟨200, ruleText⟩) (.error timeoutError)
          (.error timeoutError)) sampleStored).outcome = .returned [] ∧
      (resourceSecurityRuleRead
        (sampleEnv (.error timeoutError) (.ok ⟨200, ruleText⟩) (.error timeoutError)
          (.error timeoutError)) sampleStored).d.region = "cn-north-4" :=
  ⟨rfl, rfl, rfl, rfl⟩

/-- C10 as amended: for every decoded GET response, Read leaves `id`,
`workspace_id` and `secrecy_level_id` as they were, whatever the response holds
under those keys; when Read returns no diagnostics, `region` is the region of
the client, the nine fields `rule_type`, `name`, `method`, `content_expression`,
`column_expression`, `comment_expression` (from the wire key
`commit_expression`), `builtin_rule_id`, `category_id`, `description` and the
five computed fields `secrecy_level`, `secrecy_level_num`, `enable`,
`created_by`, `updated_by` hold the value of the response as the schema decodes
it, and `created_at`, `updated_at` hold the formatted timestamps of the
response. -/
theorem read_frame_and_refresh (env : Env) (d : ResourceData) (client : ServiceClient)
    (resp : Response) (body : Json)
    (hclient : env.NewServiceClient "dataarts" (env.GetRegion d) = .ok client)
    (hget : env.Request client "GET" (rulePath client d.Id) (headerOpts d) = .ok resp)
    (hflat : env.FlattenResponse resp = .ok body) :
    ((resourceSecurityRuleRead env d).d.Id = d.Id ∧
      (resourceSecurityRuleRead env d).d.workspace_id = d.workspace_id ∧
      (resourceSecurityRuleRead env d).d.secrecy_level_id = d.secrecy_level_id) ∧
    ((resourceSecurityRuleRead env d).outcome = .returned [] →
      (resourceSecurityRuleRead env d).d.region = env.GetRegion d ∧
      decodePrimitive .TypeString "rule_type" (PathSearch "rule_type" body .null)
        = .ok (.str (resourceSecurityRuleRead env d).d.rule_type) ∧
      decodePrimitive .TypeString "name" (PathSearch "name" body .null)
        = .ok (.str (resourceSecurityRuleRead env d).d.name) ∧
      decodePrimitive .TypeString "method" (PathSearch "method" body .null)
        = .ok (.str (resourceSecurityRuleRead env d).d.method) ∧
      decodePrimitive .TypeString "content_expression" (PathSearch "content_expression" body .null)
        = .ok (.str (resourceSecurityRuleRead env d).d.content_expression) ∧
      decodePrimitive .TypeString "column_expression" (PathSearch "column_expression" body .null)
        = .ok (.str (resourceSecurityRuleRead env d).d.column_expression) ∧
      decodePrimitive .TypeString "comment_expression" (PathSearch "commit_expression" body .null)
        = .ok (.str (resourceSecurityRuleRead env d).d.comment_expression) ∧
      decodePrimitive .TypeString "builtin_rule_id" (PathSearch "builtin_rule_id" body .null)
        = .ok (.str (resourceSecurityRuleRead env d).d.builtin_rule_id) ∧
      decodePrimitive .TypeString "category_id" (PathSearch "category_id" body .null)
        = .ok (.str (resourceSecurityRuleRead env d).d.category_id) ∧
      decodePrimitive .TypeString "description" (PathSearch "description" body .null)
        = .ok (.str (resourceSecurityRuleRead env d).d.description) ∧
      decodePrimitive .TypeString "secrecy_level" (PathSearch "secrecy_level" body .null)
        = .ok (.str (resourceSecurityRuleRead env d).d.secrecy_level) ∧
      decodePrimitive .TypeInt "secrecy_level_num" (PathSearch "secrecy_level_num" body .null)
        = .ok (.num (resourceSecurityRuleRead env d).d.secrecy_level_num) ∧
      decodePrimitive .TypeBool "enable" (PathSearch "enable" body .null)
        = .ok (.bool (resourceSecurityRuleRead env d).d.enable) ∧
      timestampArg (PathSearch "created_at" body .null)
        = .ok (.str (resourceSecurityRuleRead env d).d.created_at) ∧
      timestampArg (PathSearch "updated_at" body .null)
        = .ok (.str (resourceSecurityRuleRead env d).d.updated_at) ∧
      decodePrimitive .TypeString "created_by" (PathSearch "created_by" body .null)
        = .ok (.str (resourceSecurityRuleRead env d).d.created_by) ∧
      decodePrimitive .TypeString "updated_by" (PathSearch "updated_by" body .null)
        = .ok (.str (resourceSecurityRuleRead env d).d.updated_by)) := by
  rw [read_of_body env d client resp body hclient hget hflat]
  refine ⟨runSets_read_frame (env.GetRegion d) body d, ?_⟩
  intro hout
  obtain ⟨hp, he⟩ := outcome_returned_nil _ hout
  have hkeys := readAssignments_nodup (env.GetRegion d) body
  have hok := runSets_ok_of_panic_none _ d hp
  obtain ⟨vc, hvc⟩ := hok ("created_at", timestampArg (PathSearch "created_at" body .null))
    (by simp [readAssignments])
  obtain ⟨vu, hvu⟩ := hok ("updated_at", timestampArg (PathSearch "updated_at" body .null))
    (by simp [readAssignments])
  simp only at hvc hvu
  have stored := fun key v a (ha : schemaAttr key = some a)
      (hmem : (key, Except.ok v) ∈ readAssignments (env.GetRegion d) body) =>
    runSets_stored _ d hkeys hp he key v a ha hmem
  have hregion := stored "region" (.str (env.GetRegion d)) .region rfl (by simp [readAssignments])
  have hcreated := stored "created_at" vc .created_at rfl (by simp [readAssignments, hvc])
  have hupdated := stored "updated_at" vu .updated_at rfl (by simp [readAssignments, hvu])
  have hcs : vc = .str (runSets d (readAssignments (env.GetRegion d) body)).d.created_at := by
    rcases assertFloat64_cases (PathSearch "created_at" body .null) with ⟨k, hk⟩ | ⟨p, hk⟩
    · rw [hk, timestampArg_of_num] at hvc
      injection hvc with hvc
      subst hvc
      simpa [decodePrimitive, Attr.type, ResourceData.get] using hcreated
    · simp [timestampArg, hk, Except.map] at hvc
  have hus : vu = .str (runSets d (readAssignments (env.GetRegion d) body)).d.updated_at := by
    rcases assertFloat64_cases (PathSearch "updated_at" body .null) with ⟨k, hk⟩ | ⟨p, hk⟩
    · rw [hk, timestampArg_of_num] at hvu
      injection hvu with hvu
      subst hvu
      simpa [decodePrimitive, Attr.type, ResourceData.get] using hupdated
    · simp [timestampArg, hk, Except.map] at hvu
  refine ⟨?_, stored "rule_type" _ .rule_type rfl (by simp [readAssignments]),
    stored "name" _ .name rfl (by simp [readAssignments]),
    stored "method" _ .method rfl (by simp [readAssignments]),
    stored "content_expression" _ .content_expression rfl (by simp [readAssignments]),
    stored "column_expression" _ .column_expression rfl (by simp [readAssignments]),
    stored "comment_expression" _ .comment_expression rfl (by simp [readAssignments]),
    stored "builtin_rule_id" _ .builtin_rule_id rfl (by simp [readAssignments]),
    stored "category_id" _ .category_id rfl (by simp [readAssignments]),
    stored "description" _ .description rfl (by simp [readAssignments]),
    stored "secrecy_level" _ .secrecy_level rfl (by simp [readAssignments]),
    stored "secrecy_level_num" _ .secrecy_level_num rfl (by simp [readAssignments]),
    stored "enable" _ .enable rfl (by simp [readAssignments]),
    ?_, ?_,
    stored "created_by" _ .created_by rfl (by simp [readAssignments]),
    stored "updated_by" _ .updated_by rfl (by simp [readAssignments])⟩
  · simpa [decodePrimitive, Attr.type, ResourceData.get] using hregion.symm
  · rw [hvc, hcs]
  · rw [hvu, hus]

set_option maxRecDepth 100000 in
/-- C10 as amended, at a response that carries other values under
`workspace_id` and `secrecy_level_id`. -/
theorem read_frame_and_refresh_witness :
    PathSearch "workspace_id" sampleRule .null = .str "ws-9" ∧
      PathSearch "secrecy_level_id" sampleRule .null = .str "lvl-9" ∧
      ((resourceSecurityRuleRead
        (sampleEnv (.error timeoutError) (.ok ⟨200, ruleText⟩) (.error timeoutError)
          (.error timeoutError)) sampleStored).d.Id = "rule-1" ∧
      (resourceSecurityRuleRead
        (sampleEnv (.error timeoutError) (.ok ⟨200, ruleText⟩) (.error timeoutError)
          (.error timeoutError)) sampleStored).d.workspace_id = "ws-1" ∧
      (resourceSecurityRuleRead
        (sampleEnv (.error timeoutError) (.ok ⟨200, ruleText⟩) (.error timeoutError)
          (.error timeoutError)) sampleStored).d.secrecy_level_id = "lvl-1") ∧
      (resourceSecurityRuleRead
        (sampleEnv (.error timeoutError) (.ok ⟨200, ruleText⟩) (.error timeoutError)
          (.error timeoutError)) sampleStored).d.region = "cn-north-4" :=
  ⟨rfl, rfl,
    (read_frame_and_refresh
      (sampleEnv (.error timeoutError) (.ok ⟨200, ruleText⟩) (.error timeoutError)
        (.error timeoutError))
      sampleStored sampleClient ⟨200, ruleText⟩ sampleRule rfl rfl rfl).1,
    ((read_frame_and_refresh
      (sampleEnv (.error timeoutError) (.ok ⟨200, ruleText⟩) (.error timeoutError)
        (.error timeoutError))
      sampleStored sampleClient ⟨200, ruleText⟩ sampleRule rfl rfl rfl).2 rfl).1⟩

end DataArts
